import Mathlib

/-!
Verification of the petmail messaging core against its specification.

The development shallowly embeds the Python sources:
  - src/petmail/mailbox/channel.py   (channel send/receive: msgC/msgD/msgE)
  - src/petmail/invitation.py        (pairing / invitation state machine)
  - src/petmail/database.py          (observable store)

Byte strings are modelled symbolically: the cryptographic primitives (NaCl
box, secretbox, signing, HKDF, SHA-256) are consumed by the program as black
boxes, so ciphertexts, signatures, digests and key encodings are free
constructors of an inductive type `Data`, and decryption / verification are
the partial inverses that succeed exactly when the keys match.  Concatenation
of byte strings is the `cat` constructor; the fixed-width splits that the
source performs (split_into with byte counts, struct.unpack of 8-byte
big-endian integers) become pattern matches on the corresponding shape.
Database rows are Lean structures; tables are lists of rows in rowid order,
SQL SELECT/UPDATE become list lookups and maps.
-/

set_option maxHeartbeats 2000000

namespace Petmail

/-- A JSON-serializable payload value.  JSON serialization (json.dumps /
json.loads) is a Python-stdlib black box for the source; we record the value
itself and use that loads is a left inverse of dumps on serializable values.
The `text` field stands for the serialized form. -/
structure Json where
  text : String
  deriving DecidableEq, Repr

/-- The addressbook channel record published during pairing
(invitation.py:113-116): the peer learns my channel public key, my CID key
and my transport list.  In the source it travels and is stored as JSON text;
here it is kept structurally, (de)serialization being a black box.
Asymmetric key pairs and signing key pairs are identified by a `Nat`; the
public / verify key encodings are marked constructors of `Data` below. -/
structure ChannelRecord where
  channel_pubkey : Nat
  CID_key : Nat
  transports : List Nat
  deriving DecidableEq, Repr

/-- Symbolic byte strings.  Each constructor is one of the byte-string
producers the source uses:
  - `atom n`: an opaque random byte string (os.urandom results, CID keys);
  - `lit s`: an ASCII literal such as "c0:" or "i0:m1:";
  - `pk k` / `vkey k`: the 32-byte encoding of the public / verify half of
    key pair `k`;
  - `seq8 n`: struct.pack of an 8-byte big-endian sequence number;
  - `cat a b`: concatenation (string +, "".join);
  - `nstr d`: netstring(d), the classical len:payload, framing
    (netstring.py is not under src/; modelled from the spec as an
    injective self-delimiting wrapper);
  - `sgn k m`: the NaCl attached-signature message sign(key k, m);
  - `box toPub fromK nonce m`: NaCl Box(priv fromK, toPub).encrypt(m, nonce),
    nonce prepended;
  - `sbox key nonce m`: NaCl SecretBox(atom key).encrypt(m, nonce);
  - `hashd d`: sha256(d).digest();
  - `hkdfCID key n`: HKDF(IKM=CIDKey+seq8 n, dkLen=32,
    info="petmail.org/v1/CIDToken") (hkdf.py is not under src/; modelled
    from the spec as an opaque injective derivation);
  - `hexd d`: d.encode("hex");
  - `jsond j`: json.dumps(j) as bytes;
  - `crecd r`: the JSON text of a channel record. -/
inductive Data where
  | atom (n : Nat)
  | lit (s : String)
  | pk (k : Nat)
  | vkey (k : Nat)
  | seq8 (n : Nat)
  | cat (a b : Data)
  | nstr (d : Data)
  | sgn (k : Nat) (m : Data)
  | box (toPub : Data) (fromK : Nat) (nonce : Nat) (m : Data)
  | sbox (key : Nat) (nonce : Nat) (m : Data)
  | hashd (d : Data)
  | hkdfCID (key : Nat) (n : Nat)
  | hexd (d : Data)
  | jsond (j : Json)
  | crecd (r : ChannelRecord)
  deriving DecidableEq, Repr

/-- NaCl box decryption: Box(priv privK, senderPub).decrypt(d).  Succeeds
when the two Diffie-Hellman pairs coincide: either the ciphertext was made
for key pair `privK` by the owner of `senderPub`, or (NaCl box being
symmetric in the key exchange) the decryptor is the encryptor itself. -/
def boxDec (privK : Nat) (senderPub : Data) (d : Data) : Option Data :=
  match d with
  | .box toPub fromK _ m =>
    if (toPub = Data.pk privK ∧ senderPub = Data.pk fromK) ∨
       (privK = fromK ∧ senderPub = toPub) then some m else none
  | _ => none

/-- NaCl secretbox decryption: SecretBox(key).decrypt(d); raises CryptoError
(here: `none`) unless the symmetric key matches. -/
def sboxDec (key : Nat) (d : Data) : Option Data :=
  match d with
  | .sbox k _ m => if k = key then some m else none
  | _ => none

/-- VerifyKey(vkey vkId).verify(d): succeeds exactly on messages signed by
the signing half of key pair `vkId`, returning the signed body. -/
def verifySgn (vkId : Nat) (d : Data) : Option Data :=
  match d with
  | .sgn k m => if k = vkId then some m else none
  | _ => none

/-- One addressbook row (schema used by channel.py and written by
invitation.py:356-380).  `my_signkey` and `their_verfkey` are signing key
pair identifiers (the source stores hex of the seed / verify key);
`my_old_channel_privkey` / `my_new_channel_privkey` are asymmetric key pair
identifiers; `their_channel_record` is stored as JSON text in the source. -/
structure AddressbookRow where
  id : Nat
  petname : String
  acked : Bool
  my_signkey : Nat
  their_verfkey : Nat
  my_CID_key : Nat
  their_channel_record : ChannelRecord
  my_old_channel_privkey : Nat
  my_new_channel_privkey : Nat
  they_used_new_channel_key : Bool
  next_outbound_seqnum : Nat
  highest_inbound_seqnum : Nat
  next_CID_token : Option Nat
  deriving DecidableEq, Repr

/-- The channel-side view of the node database: the addressbook table, rows
in rowid order (SELECT without ORDER BY scans in rowid order). -/
structure ChanDB where
  addressbook : List AddressbookRow
  deriving DecidableEq, Repr

/-- SELECT ... FROM addressbook WHERE id=? / fetchone(). -/
def ChanDB.lookup (db : ChanDB) (cid : Nat) : Option AddressbookRow :=
  db.addressbook.find? (fun r => r.id = cid)

/-- The exceptions raised on the channel receive path (errors.py is not
under src/; the class names are taken from the channel.py imports).
`typeError` is Python's TypeError, raised by the erroneous diagnostic in
check_msgE (channel.py:162) which calls a byte string as a function. -/
inductive ChanErr where
  | valueError
  | cryptoError
  | replay
  | unknownChannel
  | wrongVerfkey
  | typeError
  deriving DecidableEq, Repr

/-- channel.py:69-75 parse_msgC: require the "c0:" prefix, split off the
32-byte CIDToken, one netstring (the CIDBox), trailer is msgD. -/
def parse_msgC (msgC : Data) : Except ChanErr (Data × Data × Data) :=
  match msgC with
  | .cat (.lit p) (.cat CIDToken (.cat (.nstr CIDBox) msgD)) =>
    if p = "c0:" then .ok (CIDToken, CIDBox, msgD) else .error .valueError
  | _ => .error .valueError

/-- channel.py:145-150 decrypt_CIDBox: secretbox-open, then split_into
[8, 32, 32] and struct.unpack(">Q") the seqnum. -/
def decrypt_CIDBox (CIDKey : Nat) (CIDBox : Data) :
    Except ChanErr (Nat × Data × Data) :=
  match sboxDec CIDKey CIDBox with
  | none => .error .cryptoError
  | some m =>
    match m with
    | .cat (.seq8 seqnum) (.cat HmsgD channel_pubkey_s) =>
      .ok (seqnum, HmsgD, channel_pubkey_s)
    | _ => .error .valueError

/-- channel.py:77-81 find_channel_from_CIDToken: "XXX not implemented";
always returns (None, None). -/
def find_channel_from_CIDToken (_db : ChanDB) (_CIDToken : Data) :
    Option Nat × Option Data :=
  (none, none)

/-- The scan loop of channel.py:86-97: trial-decrypt the CIDBox with each
row's my_CID_key; CryptoError falls through to the next row, any other
exception propagates; a successful decrypt is authoritative and raises
ReplayError when its seqnum is not beyond the row's
highest_inbound_seqnum. -/
def findChannelScan (CIDBox : Data) :
    List AddressbookRow → Except ChanErr (Option Nat × Option Data)
  | [] => .ok (none, none)
  | row :: rest =>
    match decrypt_CIDBox row.my_CID_key CIDBox with
    | .error .cryptoError => findChannelScan CIDBox rest
    | .error e => .error e
    | .ok (seqnum, _HmsgD, channel_pubkey_s) =>
      if seqnum ≤ row.highest_inbound_seqnum then .error .replay
      else .ok (some row.id, some channel_pubkey_s)

/-- channel.py:83-97 find_channel_from_CIDBox. -/
def find_channel_from_CIDBox (db : ChanDB) (CIDBox : Data) :
    Except ChanErr (Option Nat × Option Data) :=
  findChannelScan CIDBox db.addressbook

/-- Which of the two channel private keys a candidate carries
(channel.py:111,114). -/
inductive Which where
  | old
  | new
  deriving DecidableEq, Repr

/-- One element of the candidate key list: (privkey, (id, which,
privkey.public_key)) as yielded by build_channel_keylist.  The public half
is `Data.pk priv`. -/
structure KeyCand where
  priv : Nat
  cid : Nat
  which : Which
  deriving DecidableEq, Repr

/-- The two candidates one addressbook row contributes, old first then new
(channel.py:109-114). -/
def rowKeylist (row : AddressbookRow) : List KeyCand :=
  [ ⟨row.my_old_channel_privkey, row.id, Which.old⟩,
    ⟨row.my_new_channel_privkey, row.id, Which.new⟩ ]

/-- channel.py:99-114 build_channel_keylist: with a (truthy) known cid,
only the rows with that id; otherwise all rows.  (`if known_cid:` is Python
truthiness: None and 0 both select the full scan.) -/
def build_channel_keylist (db : ChanDB) (known_cid : Option Nat) :
    List KeyCand :=
  if known_cid.getD 0 ≠ 0 then
    ((db.addressbook.filter (fun r => r.id = known_cid.getD 0)).map
      rowKeylist).flatten
  else
    (db.addressbook.map rowKeylist).flatten

/-- channel.py:116-120 filter_on_known_channel_pubkey: keep the candidates
whose public key encoding equals the hinted one. -/
def filter_on_known_channel_pubkey (keylist : List KeyCand)
    (known_channel_pubkey_s : Data) : List KeyCand :=
  keylist.filter (fun c => Data.pk c.priv = known_channel_pubkey_s)

/-- channel.py:123-131 find_channel_list: CIDToken hint (never fires), then
CIDBox hint (may raise ReplayError), then the key list, filtered when a
pubkey hint was produced. -/
def find_channel_list (db : ChanDB) (CIDToken CIDBox : Data) :
    Except ChanErr (List KeyCand) := do
  let (cid0, known0) := find_channel_from_CIDToken db CIDToken
  let (cid, known_channel_pubkey_s) ←
    if cid0.getD 0 = 0 then find_channel_from_CIDBox db CIDBox
    else pure (cid0, known0)
  let keylist := build_channel_keylist db cid
  match known_channel_pubkey_s with
  | some known => pure (filter_on_known_channel_pubkey keylist known)
  | none => pure keylist

/-- The trial loop of channel.py:137-143: first candidate that opens the
box against pubkey2 wins. -/
def trialDecrypt (pubkey2_s enc : Data) :
    List KeyCand → Option (KeyCand × Data × Data)
  | [] => none
  | c :: rest =>
    match boxDec c.priv pubkey2_s enc with
    | some msgE => some (c, pubkey2_s, msgE)
    | none => trialDecrypt pubkey2_s enc rest

/-- channel.py:134-143 decrypt_msgD: split the leading 32-byte pubkey2,
trial-decrypt the remainder with every candidate; all failures yield
(None, None, None). -/
def decrypt_msgD (msgD : Data) (keylist : List KeyCand) :
    Except ChanErr (Option (KeyCand × Data × Data)) :=
  match msgD with
  | .cat pubkey2_s enc => .ok (trialDecrypt pubkey2_s enc keylist)
  | _ => .error .valueError

/-- Modelled from the spec: util.verify_with_prefix (util.py is not under
src/, its contract is spec section 4.5 step 5 and test_util.py:21-36):
verify the signed message with the verify key, require the given prefix on
the verified plaintext, strip it and return the remainder; a bad signature
raises CryptoError, a missing prefix raises BadSignatureError (both are
collapsed to `cryptoError` here; no claim distinguishes them). -/
def verifyWithPfx (vkId : Nat) (sm : Data) (pfx : String) :
    Except ChanErr Data :=
  match verifySgn vkId sm with
  | none => .error .cryptoError
  | some m =>
    match m with
    | .cat (.lit p) rest =>
      if p = pfx then .ok rest else .error .cryptoError
    | _ => .error .cryptoError

/-- channel.py:154-164 check_msgE: unpack the 8-byte seqnum, replay check,
one netstring (the signed ephemeral key), verify with the sender's
long-term verify key under prefix "ce0:", compare the signed plaintext with
pubkey2.  On mismatch the source executes
`print repr(m), pubkey2_s(m)` (channel.py:162), which calls the byte string
pubkey2_s as a function and raises TypeError before reaching the
`raise WrongVerfkeyError()` on the next line.  The trailer must be the
UTF-8 JSON payload. -/
def check_msgE (msgE pubkey2_s : Data) (sender_verfkey : Nat)
    (highest_seqnum : Nat) : Except ChanErr (Nat × Json) :=
  match msgE with
  | .cat (.seq8 seqnum) rest =>
    if seqnum ≤ highest_seqnum then .error .replay
    else
      match rest with
      | .cat (.nstr ns) payload_s =>
        match verifyWithPfx sender_verfkey ns "ce0:" with
        | .error e => .error e
        | .ok m =>
          if m ≠ pubkey2_s then .error .typeError
          else
            match payload_s with
            | .jsond p => .ok (seqnum, p)
            | _ => .error .valueError
      | _ => .error .valueError
  | _ => .error .valueError

/-- channel.py:272-274 build_CIDToken. -/
def build_CIDToken (CIDKey : Nat) (seqnum : Nat) : Data :=
  Data.hkdfCID CIDKey seqnum

/-- channel.py:166-181 validate_msgC: re-open the CIDBox with my_CID_key
and cross-check seqnum, channel pubkey, H(msgD) and the CIDToken; any
mismatch raises ValueError.  `channel_pubkey` is the winning candidate's
key pair (the source passes the PublicKey object). -/
def validate_msgC (CIDKey : Nat) (channel_pubkey : Nat)
    (seqnum_from_msgE : Nat) (CIDBox CIDToken msgD : Data) :
    Except ChanErr Unit :=
  match decrypt_CIDBox CIDKey CIDBox with
  | .error e => .error e
  | .ok (seqnum_from_CIDBox, HmsgD, channel_pubkey_s_from_CIDBox) =>
    if seqnum_from_CIDBox ≠ seqnum_from_msgE then .error .valueError
    else if channel_pubkey_s_from_CIDBox ≠ Data.pk channel_pubkey then
      .error .valueError
    else if HmsgD ≠ Data.hashd msgD then .error .valueError
    else if build_CIDToken CIDKey seqnum_from_msgE ≠ CIDToken then
      .error .valueError
    else .ok ()

/-- UPDATE addressbook SET highest_inbound_seqnum=? WHERE id=?
(channel.py:200-201), followed by commit. -/
def updateHighest (db : ChanDB) (cid : Nat) (seqnum : Nat) : ChanDB :=
  ⟨db.addressbook.map (fun r =>
    if r.id = cid then { r with highest_inbound_seqnum := seqnum } else r)⟩

/-- channel.py:183-203 process_msgC.  Returns the database as left
component in every case: the source performs its single UPDATE and commit
only after all checks pass, so on every raising path the database is the
unchanged input. -/
def process_msgC (db : ChanDB) (msgC : Data) :
    ChanDB × Except ChanErr (Nat × Json) :=
  match parse_msgC msgC with
  | .error e => (db, .error e)
  | .ok (CIDToken, CIDBox, msgD) =>
    match find_channel_list db CIDToken CIDBox with
    | .error e => (db, .error e)
    | .ok keylist =>
      match decrypt_msgD msgD keylist with
      | .error e => (db, .error e)
      | .ok none => (db, .error .unknownChannel)
      | .ok (some (keyid, pubkey2_s, msgE)) =>
        match db.lookup keyid.cid with
        | none => (db, .error .valueError)
        | some row =>
          match check_msgE msgE pubkey2_s row.their_verfkey
              row.highest_inbound_seqnum with
          | .error e => (db, .error e)
          | .ok (seqnum, payload) =>
            match validate_msgC row.my_CID_key keyid.priv seqnum
                CIDBox CIDToken msgD with
            | .error e => (db, .error e)
            | .ok () =>
              (updateHighest db keyid.cid seqnum, .ok (keyid.cid, payload))

/-- UPDATE addressbook SET next_outbound_seqnum=? WHERE id=?
(channel.py:302-303). -/
def updateNextOutbound (db : ChanDB) (cid : Nat) (v : Nat) : ChanDB :=
  ⟨db.addressbook.map (fun r =>
    if r.id = cid then { r with next_outbound_seqnum := v } else r)⟩

/-- channel.py:294-332 OutboundChannel.createMsgC.  `privkey2` is the
per-message ephemeral key pair (PrivateKey.generate()), `nonceD` and
`nonceC` the two os.urandom nonces; they are passed explicitly since the
embedding is deterministic.  The fetch-and-increment of
next_outbound_seqnum is committed before the message is built; a missing
cid fails the assert (result `none`, database untouched), and
struct.pack(">Q", n) raises for n ≥ 2^64 (result `none`, increment already
committed). -/
def createMsgC (db : ChanDB) (cid : Nat) (payload : Json)
    (privkey2 nonceD nonceC : Nat) : ChanDB × Option Data :=
  match db.lookup cid with
  | none => (db, none)
  | some res =>
    let next_outbound_seqnum := res.next_outbound_seqnum
    let db' := updateNextOutbound db cid (next_outbound_seqnum + 1)
    if next_outbound_seqnum < 2 ^ 64 then
      let crec := res.their_channel_record
      let pubkey2 := Data.pk privkey2
      let authenticator := Data.cat (Data.lit "ce0:") pubkey2
      let msgE := Data.cat (Data.seq8 next_outbound_seqnum)
        (Data.cat (Data.nstr (Data.sgn res.my_signkey authenticator))
          (Data.jsond payload))
      let msgD := Data.cat pubkey2
        (Data.box (Data.pk crec.channel_pubkey) privkey2 nonceD msgE)
      let HmsgD := Data.hashd msgD
      let CIDToken := build_CIDToken crec.CID_key next_outbound_seqnum
      let CIDBox := Data.sbox crec.CID_key nonceC
        (Data.cat (Data.seq8 next_outbound_seqnum)
          (Data.cat HmsgD (Data.pk crec.channel_pubkey)))
      let msgC := Data.cat (Data.lit "c0:")
        (Data.cat CIDToken (Data.cat (Data.nstr CIDBox) msgD))
      (db', some msgC)
    else (db', none)

/-! ## Invitation layer (invitation.py) -/

/-- The my_private_channel_data JSON record (invitation.py:117-122). -/
structure PrivData where
  my_signkey : Nat
  my_CID_key : Nat
  my_old_channel_privkey : Nat
  my_new_channel_privkey : Nat
  transport_ids : List Nat
  deriving DecidableEq, Repr

/-- One row of the invitations table (invitation.py:128-140).  `inviteKey`
is the signing key pair stretched from the code; `inviteID` is stored as
hex of its verify key and is modelled by the key pair identifier (the
encoding is injective).  `myMessages` / `theirMessages` are Python sets
serialized as comma-joined text; they are modelled as duplicate-free lists
in insertion order, set operations acting through membership. -/
structure InvitationRow where
  id : Nat
  petname : String
  inviteKey : Nat
  inviteID : Nat
  myTempPrivkey : Nat
  mySigningKey : Nat
  my_channel_record : ChannelRecord
  my_private_channel_data : PrivData
  theirTempPubkey : Option Data
  myMessages : List Data
  theirMessages : List Data
  nextExpectedMessage : Nat
  addressbook_id : Option Nat
  deriving DecidableEq, Repr

/-- The invitation-side view of the node database: invitations and
addressbook tables plus the next addressbook rowid. -/
structure InvDB where
  invitations : List InvitationRow
  addressbook : List AddressbookRow
  nextAbId : Nat
  deriving DecidableEq, Repr

/-- SELECT ... FROM invitations WHERE id=? / fetchone(). -/
def InvDB.invLookup (db : InvDB) (iid : Nat) : Option InvitationRow :=
  db.invitations.find? (fun r => r.id = iid)

/-- Set difference of Python sets, on the list model. -/
def sdiff (a b : List Data) : List Data :=
  a.filter (fun m => m ∉ b)

/-- Set union of Python sets, on the list model (left-biased order). -/
def sunion (a b : List Data) : List Data :=
  a ++ b.filter (fun m => m ∉ a)

/-- set.add on the list model. -/
def sinsert (a : List Data) (m : Data) : List Data :=
  if m ∈ a then a else a ++ [m]

/-- The signed rendezvous framing "r0:" + hex(sign(inviteKey, msg))
(invitation.py:287). -/
def wireMsg (inviteKey : Nat) (msg : Data) : Data :=
  Data.cat (Data.lit "r0:") (Data.hexd (Data.sgn inviteKey msg))

/-- Inbound frame check of invitation.py:239-244: require the r0:hex shape
(VALID_MESSAGE), strip and dehex, verify with the invite verify key.  A
shape failure is CorruptChannelError and a signature failure is
BadSignatureError; both land in the same except block (whose
self.unsubscribe call then raises AttributeError), so the model collapses
them into `none`. -/
def decodeWire (inviteKey : Nat) (m : Data) : Option Data :=
  match m with
  | .cat (.lit p) (.hexd d) =>
    if p = "r0:" then
      match d with
      | .sgn k body => if k = inviteKey then some body else none
      | _ => none
    else none
  | _ => none

/-- Exceptions on the invitation path.  `keyError` is the missing-row
KeyError (invitation.py:83,165); `assertionError` the failed assert of
processM2 (invitation.py:327); `cryptoError` a failed sealed-box decrypt; `badSignature`
a failed inner-signature verify; `valueError` carries the source's
message text; `attributeError` is the AttributeError of
invitation.py:249 — the corrupt-frame except block calls
self.unsubscribe, but the Invitation class defines no such attribute
(only InvitationManager has an unsubscribe method, and processM3 goes
through self.manager.unsubscribe); `noneType` stands for subscripting a
missing fetchone() result (unreachable in the modelled flows). -/
inductive InvErr where
  | keyError
  | assertionError
  | cryptoError
  | badSignature
  | valueError (msg : String)
  | attributeError
  | noneType
  deriving DecidableEq, Repr

/-- The in-memory Invitation object state (invitation.py:153-174): the
mutable fields handlers touch plus identity.  The immutable key material is
read back from the (pending) database by the get* methods, which the model
mirrors. -/
structure InvSession where
  iid : Nat
  petname : String
  inviteID : Nat
  inviteKey : Nat
  theirTempPubkey : Option Data
  nextExpectedMessage : Nat
  myMessages : List Data
  theirMessages : List Data
  deriving DecidableEq, Repr

/-- The side effects of one processMessages tick: the pending (uncommitted)
database view, the messages handed to manager.sendToAll in order, and
whether unsubscribe was called. -/
structure InvEffects where
  db : InvDB
  sent : List Data
  unsubscribed : Bool
  deriving DecidableEq, Repr

/-- UPDATE invitations SET theirTempPubkey=? WHERE id=?
(invitation.py:299-302). -/
def updateTheirTempPubkey (db : InvDB) (iid : Nat) (v : Data) : InvDB :=
  { db with invitations := db.invitations.map (fun r =>
      if r.id = iid then { r with theirTempPubkey := some v } else r) }

/-- UPDATE invitations SET addressbook_id=? WHERE id=?
(invitation.py:381-383). -/
def updateAddressbookId (db : InvDB) (iid : Nat) (v : Nat) : InvDB :=
  { db with invitations := db.invitations.map (fun r =>
      if r.id = iid then { r with addressbook_id := some v } else r) }

/-- UPDATE addressbook SET acked=1 WHERE id=? (invitation.py:394); a NULL
cid matches no row. -/
def updateAcked (db : InvDB) (cid : Option Nat) : InvDB :=
  { db with addressbook := db.addressbook.map (fun r =>
      if some r.id = cid then { r with acked := true } else r) }

/-- DELETE FROM invitations WHERE id=? (invitation.py:396). -/
def deleteInvitation (db : InvDB) (iid : Nat) : InvDB :=
  { db with invitations := db.invitations.filter (fun r => ¬ r.id = iid) }

/-- The final UPDATE of processMessages (invitation.py:266-275); after
processM3 deleted the row this updates nothing. -/
def updateInvFinal (db : InvDB) (iid : Nat) (my their : List Data)
    (next : Nat) : InvDB :=
  { db with invitations := db.invitations.map (fun r =>
      if r.id = iid then
        { r with myMessages := my, theirMessages := their,
                 nextExpectedMessage := next }
      else r) }

/-- Invitation.send (invitation.py:285-294): sign-frame the message, add it
to myMessages when persistent, hand it to manager.sendToAll. -/
def invSend (s : InvSession) (eff : InvEffects) (msg : Data)
    (persist : Bool) : InvSession × InvEffects :=
  let signed := wireMsg s.inviteKey msg
  let s := if persist then { s with myMessages := sinsert s.myMessages signed }
           else s
  (s, { eff with sent := eff.sent ++ [signed] })

/-- invitation.py:296-323 processM1: store theirTempPubkey (in memory and
in the pending row), build the sealed M2 body
i0:m2a: + my verify key + sign(peer_temp + my_temp + my channel record),
box it to the peer's temp key, send i0:m2:, advance to stage 2. -/
def processM1 (nonce1 : Nat) (s : InvSession) (eff : InvEffects)
    (msg : Data) : InvSession × InvEffects × Option InvErr :=
  let s := { s with theirTempPubkey := some msg }
  let eff := { eff with db := updateTheirTempPubkey eff.db s.iid msg }
  match eff.db.invLookup s.iid with
  | none => (s, eff, some InvErr.noneType)
  | some row =>
    let my_privkey := row.myTempPrivkey
    let my_channel_record := row.my_channel_record
    let signedBody := Data.cat msg
      (Data.cat (Data.pk my_privkey) (Data.crecd my_channel_record))
    let my_sign := row.mySigningKey
    let body := Data.cat (Data.lit "i0:m2a:")
      (Data.cat (Data.vkey my_sign) (Data.sgn my_sign signedBody))
    let nonce_and_ciphertext := Data.box msg my_privkey nonce1 body
    let msg2 := Data.cat (Data.lit "i0:m2:") nonce_and_ciphertext
    let (s, eff) := invSend s eff msg2 true
    ({ s with nextExpectedMessage := 2 }, eff, none)

/-- invitation.py:325-387 processM2: open the sealed box with my temp key,
require the i0:m2a: prefix, verify the inner signature with the embedded
verify key, perform the two binding checks, insert the addressbook row,
record addressbook_id, send the ACK, advance to stage 3.  The binding
checks compare the first 32 verified bytes with my actual temp public key
and the next 32 with the stored theirTempPubkey; shapes that cannot carry
a well-formed triple fail the first comparison, as the sliced garbage does
in the source. -/
def processM2 (nonce2 : Nat) (s : InvSession) (eff : InvEffects)
    (msg : Data) : InvSession × InvEffects × Option InvErr :=
  match s.theirTempPubkey with
  | none => (s, eff, some InvErr.assertionError)
  | some theirTempPub =>
    match eff.db.invLookup s.iid with
    | none => (s, eff, some InvErr.noneType)
    | some row =>
      let my_privkey := row.myTempPrivkey
      match boxDec my_privkey theirTempPub msg with
      | none => (s, eff, some InvErr.cryptoError)
      | some body =>
        match body with
        | .cat (.lit p) verfkey_and_signedBody =>
          if p = "i0:m2a:" then
            match verfkey_and_signedBody with
            | .cat (.vkey theirVerfkey) signedBody =>
              match verifySgn theirVerfkey signedBody with
              | none => (s, eff, some InvErr.badSignature)
              | some inner =>
                match inner with
                | .cat check_myTempPubkey
                    (.cat check_theirTempPubkey their_channel_record_json) =>
                  if check_myTempPubkey ≠ Data.pk my_privkey then
                    (s, eff, some (InvErr.valueError "binding failure myTempPubkey"))
                  else if check_theirTempPubkey ≠ theirTempPub then
                    (s, eff, some (InvErr.valueError "binding failure theirTempPubkey"))
                  else
                    match their_channel_record_json with
                    | .crecd them =>
                      let me := row.my_private_channel_data
                      let addressbook_id := eff.db.nextAbId
                      let newRow : AddressbookRow :=
                        { id := addressbook_id
                          petname := s.petname
                          acked := false
                          my_signkey := me.my_signkey
                          their_verfkey := theirVerfkey
                          my_CID_key := me.my_CID_key
                          their_channel_record := them
                          my_old_channel_privkey := me.my_old_channel_privkey
                          my_new_channel_privkey := me.my_new_channel_privkey
                          they_used_new_channel_key := false
                          next_outbound_seqnum := 1
                          highest_inbound_seqnum := 0
                          next_CID_token := none }
                      let db := { eff.db with
                        addressbook := eff.db.addressbook ++ [newRow],
                        nextAbId := eff.db.nextAbId + 1 }
                      let db := updateAddressbookId db s.iid addressbook_id
                      let eff := { eff with db := db }
                      let msg3 := Data.cat (Data.lit "i0:m3:")
                        (Data.cat (Data.lit "ACK-") (Data.atom nonce2))
                      let (s, eff) := invSend s eff msg3 true
                      ({ s with nextExpectedMessage := 3 }, eff, none)
                    | _ => (s, eff, some (InvErr.valueError "json"))
                | _ =>
                  (s, eff, some (InvErr.valueError "binding failure myTempPubkey"))
            | _ => (s, eff, some InvErr.badSignature)
          else (s, eff, some (InvErr.valueError "expected i0:m2a:"))
        | _ => (s, eff, some (InvErr.valueError "expected i0:m2a:"))

/-- invitation.py:389-402 processM3: require the ACK- prefix, mark the
addressbook row acked, delete the invitation row, send the non-persistent
destroy message, unsubscribe. -/
def processM3 (nonce3 : Nat) (s : InvSession) (eff : InvEffects)
    (msg : Data) : InvSession × InvEffects × Option InvErr :=
  match msg with
  | .cat (.lit p) _ =>
    if p = "ACK-" then
      match eff.db.invLookup s.iid with
      | none => (s, eff, some InvErr.noneType)
      | some row =>
        let cid := row.addressbook_id
        let db := updateAcked eff.db cid
        let db := deleteInvitation db s.iid
        let eff := { eff with db := db }
        let msg4 := Data.cat (Data.lit "i0:destroy:") (Data.atom nonce3)
        let (s, eff) := invSend s eff msg4 false
        (s, { eff with unsubscribed := true }, none)
    else (s, eff, some (InvErr.valueError "bad ACK"))
  | _ => (s, eff, some (InvErr.valueError "bad ACK"))

/-- invitation.py:279-283 findPrefixAndCall: the first body carrying the
prefix, with the prefix stripped. -/
def findBody (pfx : String) : List Data → Option Data
  | [] => none
  | b :: rest =>
    match b with
    | .cat (.lit p) m => if p = pfx then some m else findBody pfx rest
    | _ => findBody pfx rest

/-- One dispatch stage of invitation.py:258-264. -/
def runHandler (pfx : String) (bodies : List Data)
    (h : InvSession → InvEffects → Data → InvSession × InvEffects × Option InvErr)
    (s : InvSession) (eff : InvEffects) :
    InvSession × InvEffects × Option InvErr :=
  match findBody pfx bodies with
  | some m => h s eff m
  | none => (s, eff, none)

/-- Sequencing of dispatch stages: an uncaught exception from an earlier
stage short-circuits the rest (it propagates out of processMessages). -/
def stageSeq (r : InvSession × InvEffects × Option InvErr)
    (f : InvSession → InvEffects → InvSession × InvEffects × Option InvErr) :
    InvSession × InvEffects × Option InvErr :=
  match r with
  | (s, eff, some e) => (s, eff, some e)
  | (s, eff, none) => f s eff

/-- The three-stage dispatch of invitation.py:258-264: no elif — a stage
may advance nextExpectedMessage and the next stage then fires in the same
pass. -/
def dispatchStages (s : InvSession) (eff : InvEffects) (bodies : List Data)
    (n1 n2 n3 : Nat) : InvSession × InvEffects × Option InvErr :=
  stageSeq (stageSeq
    (if s.nextExpectedMessage = 1 then
      runHandler "i0:m1:" bodies (processM1 n1) s eff
    else (s, eff, none))
    (fun s1 eff1 =>
      if s1.nextExpectedMessage = 2 then
        runHandler "i0:m2:" bodies (processM2 n2) s1 eff1
      else (s1, eff1, none)))
    (fun s2 eff2 =>
      if s2.nextExpectedMessage = 3 then
        runHandler "i0:m3:" bodies (processM3 n3) s2 eff2
      else (s2, eff2, none))

/-- The observable outcome of one processMessages call: the committed
database (the input database when nothing was committed), the sendToAll
calls in order, whether unsubscribe ran, and the uncaught exception if
one propagated. -/
structure InvResult where
  db : InvDB
  sent : List Data
  unsubscribed : Bool
  err : Option InvErr
  deriving DecidableEq, Repr

/-- invitation.py:210-277 Invitation.processMessages (entered through the
Invitation constructor, which raises KeyError on a missing row).  Stages:
resend myMessages ∖ batch; newMessages := batch ∖ myMessages ∖
theirMessages; frame-check the new messages — on any corrupt or badly
signed one the except block of invitation.py:245-251 runs
`self.unsubscribe(self.inviteID)`, but Invitation defines no unsubscribe
attribute (only InvitationManager does; processM3 correctly calls
self.manager.unsubscribe), so AttributeError is raised inside the except
block and propagates: nothing is committed and no unsubscribe happens;
otherwise dispatch the bodies; persist myMessages / theirMessages ∪
newMessages / nextExpectedMessage and commit.  An uncaught handler
exception leaves the transaction uncommitted: the committed database is
the input one (sendToAll calls already made are still reported).
`n1 n2 n3` are the os.urandom nonces of the three handlers, explicit
because the embedding is deterministic. -/
def processMessages (db0 : InvDB) (iid : Nat) (messages : List Data)
    (n1 n2 n3 : Nat) : InvResult :=
  match db0.invLookup iid with
  | none => ⟨db0, [], false, some InvErr.keyError⟩
  | some row =>
    let s0 : InvSession :=
      { iid := row.id, petname := row.petname, inviteID := row.inviteID,
        inviteKey := row.inviteKey, theirTempPubkey := row.theirTempPubkey,
        nextExpectedMessage := row.nextExpectedMessage,
        myMessages := row.myMessages, theirMessages := row.theirMessages }
    let resends := sdiff s0.myMessages messages
    let newMessages := sdiff (sdiff messages s0.myMessages) s0.theirMessages
    if ¬ newMessages.all (fun m => (decodeWire s0.inviteKey m).isSome) then
      ⟨db0, resends, false, some InvErr.attributeError⟩
    else
      let bodies := newMessages.filterMap (decodeWire s0.inviteKey)
      let eff0 : InvEffects := ⟨db0, resends, false⟩
      match dispatchStages s0 eff0 bodies n1 n2 n3 with
      | (_, eff, some e) => ⟨db0, eff.sent, eff.unsubscribed, some e⟩
      | (s, eff, none) =>
        let db2 := updateInvFinal eff.db s.iid s.myMessages
          (sunion s.theirMessages newMessages) s.nextExpectedMessage
        ⟨db2, eff.sent, eff.unsubscribed, none⟩

/-- invitation.py:78-86 InvitationManager.messagesReceived: find the
invitation row by inviteID (LIMIT 1: the first match), raise KeyError when
there is none, else run processMessages on it. -/
def messagesReceived (db : InvDB) (inviteID : Nat) (messages : List Data)
    (n1 n2 n3 : Nat) : InvResult :=
  match db.invitations.find? (fun r => r.inviteID = inviteID) with
  | none => ⟨db, [], false, some InvErr.keyError⟩
  | some row => processMessages db row.id messages n1 n2 n3

/-! ## Observable store (database.py) and the eventual-send scheduler -/

/-- A change notification (database.py:7): table, action, row id,
post-image row value (absent for delete). -/
structure Notice (V : Type) where
  table : String
  action : String
  id : Nat
  new_value : Option V
  deriving DecidableEq, Repr

/-- The sqlite connection: rows live in the connection view as soon as they
are executed; `committed` is the durable image, refreshed by commit. -/
structure Conn (V : Type) where
  live : List (String × Nat × V)
  committed : List (String × Nat × V)
  deriving DecidableEq, Repr

/-- The ObservableDatabase (database.py:17-62): the connection, the
per-table observers (modelled by (table, observer id) pairs) and the
pending notification queue. -/
structure ODB (V : Type) where
  conn : Conn V
  observers : List (String × Nat)
  pending_notifications : List (Notice V)
  deriving DecidableEq, Repr

/-- Modelled from the spec: eventual.py is not under src/.  Per spec
sections 4.1 and 9, `eventually(o, event)` appends the one-shot callback to
a reactor task queue which is drained on a later turn; no callback runs on
the current call stack.  `queue` is that task queue, `delivered` the log of
callbacks already invoked, in invocation order. -/
structure Reactor (V : Type) where
  queue : List (Nat × Notice V)
  delivered : List (Nat × Notice V)
  deriving DecidableEq, Repr

/-- The store together with the scheduler. -/
structure Sys (V : Type) where
  odb : ODB V
  reactor : Reactor V
  deriving DecidableEq, Repr

/-- One write against the store, carrying the row the SQL produces:
insert a new row, update the row with the given id, or delete it. -/
inductive Write (V : Type) where
  | ins (table : String) (id : Nat) (v : V)
  | upd (table : String) (id : Nat) (v : V)
  | del (table : String) (id : Nat)
  deriving DecidableEq, Repr

/-- database.py:36-43 insert: execute on the connection, fetch the
post-image, queue a Notice.  No observer runs. -/
def Sys.insert (s : Sys V) (table : String) (id : Nat) (v : V) : Sys V :=
  { s with odb := { s.odb with
      conn := { s.odb.conn with live := s.odb.conn.live ++ [(table, id, v)] },
      pending_notifications := s.odb.pending_notifications ++
        [⟨table, "insert", id, some v⟩] } }

/-- database.py:45-51 update. -/
def Sys.update (s : Sys V) (table : String) (id : Nat) (v : V) : Sys V :=
  { s with odb := { s.odb with
      conn := { s.odb.conn with live := s.odb.conn.live.map (fun r =>
        if r.1 = table ∧ r.2.1 = id then (r.1, r.2.1, v) else r) },
      pending_notifications := s.odb.pending_notifications ++
        [⟨table, "update", id, some v⟩] } }

/-- database.py:53-55 delete. -/
def Sys.delete (s : Sys V) (table : String) (id : Nat) : Sys V :=
  { s with odb := { s.odb with
      conn := { s.odb.conn with live := s.odb.conn.live.filter (fun r =>
        ¬ (r.1 = table ∧ r.2.1 = id)) },
      pending_notifications := s.odb.pending_notifications ++
        [⟨table, "delete", id, none⟩] } }

def Sys.applyWrite (s : Sys V) : Write V → Sys V
  | .ins t i v => s.insert t i v
  | .upd t i v => s.update t i v
  | .del t i => s.delete t i

def Sys.applyWrites (s : Sys V) (ws : List (Write V)) : Sys V :=
  ws.foldl Sys.applyWrite s

/-- The callbacks commit schedules: for each pending notice, every observer
subscribed to its table (database.py:59-61). -/
def enqueueAll (observers : List (String × Nat)) (pending : List (Notice V)) :
    List (Nat × Notice V) :=
  pending.flatMap (fun ev =>
    (observers.filter (fun ob => ob.1 = ev.table)).map (fun ob => (ob.2, ev)))

/-- database.py:57-62 commit: first conn.commit() (the live view becomes
durable), then hand every pending notification to `eventually` — which only
schedules; no observer is invoked here — and clear the pending queue. -/
def Sys.commit (s : Sys V) : Sys V :=
  { odb := { s.odb with
      conn := { s.odb.conn with committed := s.odb.conn.live },
      pending_notifications := [] },
    reactor := { s.reactor with
      queue := s.reactor.queue ++
        enqueueAll s.odb.observers s.odb.pending_notifications } }

/-- Modelled from the spec: one later reactor turn drains the eventual
queue, invoking each scheduled one-shot callback exactly once. -/
def Sys.turn (s : Sys V) : Sys V :=
  { s with reactor :=
      { queue := [], delivered := s.reactor.delivered ++ s.reactor.queue } }

/-! ## General lemmas -/

theorem find?_skip {α} (p : α → Bool) (pre rest : List α)
    (h : ∀ r ∈ pre, ¬ p r) : (pre ++ rest).find? p = rest.find? p := by
  induction pre with
  | nil => rfl
  | cons a l ih =>
    have ha : ¬ p a := h a (by simp)
    simp only [List.cons_append, List.find?]
    rw [Bool.eq_false_iff.mpr ha]
    exact ih (fun r hr => h r (by simp [hr]))

theorem find?_eq_none_of {α} (p : α → Bool) (l : List α)
    (h : ∀ r ∈ l, ¬ p r) : l.find? p = none :=
  List.find?_eq_none.mpr h

/-! ## Channel lemmas -/

theorem ChanDB.lookup_id {db : ChanDB} {cid : Nat} {row : AddressbookRow}
    (h : db.lookup cid = some row) : row.id = cid := by
  have := List.find?_some h
  simpa using this

theorem lookup_updateHighest (db : ChanDB) (cid s cid' : Nat) :
    (updateHighest db cid s).lookup cid'
      = (db.lookup cid').map (fun r =>
          if r.id = cid then { r with highest_inbound_seqnum := s } else r) := by
  show (db.addressbook.map _).find? _ = _
  rw [List.find?_map]
  have hp : ((fun r => decide (r.id = cid')) ∘ fun r : AddressbookRow =>
        if r.id = cid then { r with highest_inbound_seqnum := s } else r)
      = fun r : AddressbookRow => decide (r.id = cid') := by
    funext r
    by_cases hr : r.id = cid <;> simp [hr]
  rw [hp]
  rfl

theorem lookup_updateNextOutbound (db : ChanDB) (cid v cid' : Nat) :
    (updateNextOutbound db cid v).lookup cid'
      = (db.lookup cid').map (fun r =>
          if r.id = cid then { r with next_outbound_seqnum := v } else r) := by
  show (db.addressbook.map _).find? _ = _
  rw [List.find?_map]
  have hp : ((fun r => decide (r.id = cid')) ∘ fun r : AddressbookRow =>
        if r.id = cid then { r with next_outbound_seqnum := v } else r)
      = fun r : AddressbookRow => decide (r.id = cid') := by
    funext r
    by_cases hr : r.id = cid <;> simp [hr]
  rw [hp]
  rfl

/-- The msgE createMsgC builds (channel.py:315-319): the pre-increment
seqnum, the netstring-framed signature over "ce0:" + pubkey2, the JSON
payload. -/
def builtMsgE (res : AddressbookRow) (payload : Json) (privkey2 : Nat) :
    Data :=
  Data.cat (Data.seq8 res.next_outbound_seqnum)
    (Data.cat (Data.nstr (Data.sgn res.my_signkey
        (Data.cat (Data.lit "ce0:") (Data.pk privkey2))))
      (Data.jsond payload))

/-- The msgD createMsgC builds (channel.py:320): pubkey2 then the msgE
boxed to the peer's published channel key. -/
def builtMsgD (res : AddressbookRow) (payload : Json)
    (privkey2 nonceD : Nat) : Data :=
  Data.cat (Data.pk privkey2)
    (Data.box (Data.pk res.their_channel_record.channel_pubkey) privkey2
      nonceD (builtMsgE res payload privkey2))

/-- The CIDBox createMsgC builds (channel.py:324-326): seqnum + SHA256 of
msgD + the peer's channel pubkey, secretboxed under the peer's CID key. -/
def builtCIDBox (res : AddressbookRow) (payload : Json)
    (privkey2 nonceD nonceC : Nat) : Data :=
  Data.sbox res.their_channel_record.CID_key nonceC
    (Data.cat (Data.seq8 res.next_outbound_seqnum)
      (Data.cat (Data.hashd (builtMsgD res payload privkey2 nonceD))
        (Data.pk res.their_channel_record.channel_pubkey)))

/-- The message createMsgC builds from the fetched row `res`: the
pre-increment next_outbound_seqnum appears as the 8-byte big-endian
seqnum of msgE and of the CIDBox plaintext, and keys the CIDToken. -/
def builtMsgC (res : AddressbookRow) (payload : Json)
    (privkey2 nonceD nonceC : Nat) : Data :=
  Data.cat (Data.lit "c0:")
    (Data.cat (Data.hkdfCID res.their_channel_record.CID_key
        res.next_outbound_seqnum)
      (Data.cat (Data.nstr (builtCIDBox res payload privkey2 nonceD nonceC))
        (builtMsgD res payload privkey2 nonceD)))

theorem createMsgC_eq {db : ChanDB} {cid : Nat} {res : AddressbookRow}
    (payload : Json) (privkey2 nonceD nonceC : Nat)
    (h : db.lookup cid = some res)
    (hb : res.next_outbound_seqnum < 2 ^ 64) :
    createMsgC db cid payload privkey2 nonceD nonceC
      = (updateNextOutbound db cid (res.next_outbound_seqnum + 1),
         some (builtMsgC res payload privkey2 nonceD nonceC)) := by
  unfold createMsgC
  rw [h]
  simp only [if_pos hb]
  rfl

theorem check_msgE_ok_inv {msgE pubkey2_s : Data} {vk hi s : Nat} {pl : Json}
    (h : check_msgE msgE pubkey2_s vk hi = .ok (s, pl)) :
    hi < s ∧ ∃ rest, msgE = Data.cat (Data.seq8 s) rest := by
  unfold check_msgE at h
  split at h <;> try simpa using h
  next seqnum rest =>
  split at h <;> try simpa using h
  next hle =>
  split at h <;> try simpa using h
  next ns payload_s =>
  split at h <;> try simpa using h
  next m =>
  split at h <;> try simpa using h
  next hne =>
  split at h <;> try simpa using h
  next p =>
  simp only [Except.ok.injEq, Prod.mk.injEq] at h
  obtain ⟨h1, -⟩ := h
  subst h1
  exact ⟨Nat.not_le.mp hle, _, rfl⟩

theorem check_msgE_ok_replay {msgE pubkey2_s : Data} {vk hi s : Nat}
    {pl : Json} (h : check_msgE msgE pubkey2_s vk hi = .ok (s, pl))
    (hi' : Nat) (hle : s ≤ hi') :
    check_msgE msgE pubkey2_s vk hi' = .error .replay := by
  obtain ⟨-, rest, hE⟩ := check_msgE_ok_inv h
  subst hE
  simp [check_msgE, hle]

theorem decrypt_CIDBox_ok_shape {key : Nat} {box : Data} {s : Nat}
    {hm c : Data} (h : decrypt_CIDBox key box = .ok (s, hm, c)) :
    ∃ n, box = Data.sbox key n (Data.cat (Data.seq8 s) (Data.cat hm c)) := by
  unfold decrypt_CIDBox at h
  split at h <;> try simpa using h
  next m hm' =>
  split at h <;> try simpa using h
  next s' a b =>
  unfold sboxDec at hm'
  split at hm' <;> try simpa using hm'
  next k n m' =>
  split at hm' <;> try simpa using hm'
  next hk =>
  simp only [Except.ok.injEq, Prod.mk.injEq] at h
  obtain ⟨h1, h2, h3⟩ := h
  obtain rfl := hk
  refine ⟨n, ?_⟩
  simp only [Option.some.injEq] at hm'
  rw [hm', h1, h2, h3]

theorem decrypt_CIDBox_ok_unique {k1 k2 : Nat} {box : Data}
    {t1 t2 : Nat × Data × Data} (h1 : decrypt_CIDBox k1 box = .ok t1)
    (h2 : decrypt_CIDBox k2 box = .ok t2) : t1 = t2 := by
  obtain ⟨a1, b1, c1⟩ := t1
  obtain ⟨a2, b2, c2⟩ := t2
  obtain ⟨n1, e1⟩ := decrypt_CIDBox_ok_shape h1
  obtain ⟨n2, e2⟩ := decrypt_CIDBox_ok_shape h2
  rw [e1] at e2
  simp only [Data.sbox.injEq, Data.cat.injEq, Data.seq8.injEq] at e2
  obtain ⟨-, -, h3, h4, h5⟩ := e2
  simp [h3, h4, h5]

theorem validate_ok_inv {CIDKey cpk s : Nat} {CIDBox CIDToken msgD : Data}
    (h : validate_msgC CIDKey cpk s CIDBox CIDToken msgD = .ok ()) :
    ∃ hm c, decrypt_CIDBox CIDKey CIDBox = .ok (s, hm, c) := by
  unfold validate_msgC at h
  split at h <;> try simpa using h
  next a b c heq =>
  split at h <;> try simpa using h
  next hna =>
  rw [not_ne_iff.mp hna] at heq
  exact ⟨b, c, heq⟩

theorem findChannelScan_append_skip {box : Data} {pre : List AddressbookRow}
    (rest : List AddressbookRow)
    (h : ∀ r ∈ pre, decrypt_CIDBox r.my_CID_key box = .error .cryptoError) :
    findChannelScan box (pre ++ rest) = findChannelScan box rest := by
  induction pre with
  | nil => rfl
  | cons a l ih =>
    have ha := h a (by simp)
    simp only [List.cons_append, findChannelScan, ha]
    exact ih (fun r hr => h r (by simp [hr]))

theorem findChannelScan_ok_some {box : Data} {rows : List AddressbookRow}
    {i : Nat} {cpk : Option Data}
    (h : findChannelScan box rows = .ok (some i, cpk)) :
    ∃ pre r0 rest s0 h0 c0, rows = pre ++ r0 :: rest
      ∧ (∀ r ∈ pre, decrypt_CIDBox r.my_CID_key box = .error .cryptoError)
      ∧ decrypt_CIDBox r0.my_CID_key box = .ok (s0, h0, c0)
      ∧ ¬ s0 ≤ r0.highest_inbound_seqnum
      ∧ i = r0.id ∧ cpk = some c0 := by
  induction rows with
  | nil => simp [findChannelScan] at h
  | cons r l ih =>
    rw [findChannelScan] at h
    split at h
    · next hdec =>
      obtain ⟨pre, r0, rest, s0, h0, c0, he, hpre, hr0, hs, hi, hc⟩ := ih h
      refine ⟨r :: pre, r0, rest, s0, h0, c0, by simp [he], ?_, hr0, hs, hi, hc⟩
      intro x hx
      rcases List.mem_cons.mp hx with rfl | hx
      · exact hdec
      · exact hpre x hx
    · next e he hne => simp at h
    · next s0 h0 c0 hdec =>
      split at h <;> try simpa using h
      next hs =>
      simp only [Except.ok.injEq, Prod.mk.injEq, Option.some.injEq] at h
      obtain ⟨h1, h2⟩ := h
      exact ⟨[], r, l, s0, h0, c0, rfl, by simp, hdec, hs, h1.symm, h2.symm⟩

/-- find_channel_list with the CIDToken path inlined (it never produces a
hint). -/
theorem find_channel_list_eq (db : ChanDB) (CIDToken CIDBox : Data) :
    find_channel_list db CIDToken CIDBox
      = match find_channel_from_CIDBox db CIDBox with
        | .error e => .error e
        | .ok (cid, known) =>
          match known with
          | some k =>
            .ok (filter_on_known_channel_pubkey
                  (build_channel_keylist db cid) k)
          | none => .ok (build_channel_keylist db cid) := by
  unfold find_channel_list find_channel_from_CIDToken
  cases hfc : find_channel_from_CIDBox db CIDBox with
  | error e => rfl
  | ok p =>
    obtain ⟨cid, known⟩ := p
    cases known <;> rfl

theorem rowKeylist_update (cid s : Nat) (r : AddressbookRow) :
    rowKeylist (if r.id = cid then { r with highest_inbound_seqnum := s }
                else r) = rowKeylist r := by
  by_cases hr : r.id = cid <;> simp [hr, rowKeylist]

theorem build_channel_keylist_updateHighest (db : ChanDB) (cid s : Nat)
    (x : Option Nat) :
    build_channel_keylist (updateHighest db cid s) x
      = build_channel_keylist db x := by
  unfold build_channel_keylist updateHighest
  have hmap : ∀ l : List AddressbookRow,
      (l.map (fun r => if r.id = cid then
          { r with highest_inbound_seqnum := s } else r)).map rowKeylist
        = l.map rowKeylist := by
    intro l
    rw [List.map_map]
    exact List.map_congr_left (fun r _ => rowKeylist_update cid s r)
  have hq : ((fun r : AddressbookRow => decide (r.id = x.getD 0)) ∘
      (fun r => if r.id = cid then
        { r with highest_inbound_seqnum := s } else r))
      = fun r : AddressbookRow => decide (r.id = x.getD 0) := by
    funext r
    by_cases hr : r.id = cid <;> simp [hr]
  split
  · rw [List.filter_map, hq, hmap]
  · rw [hmap]

/-- The full inversion of a successful process_msgC call, one conjunct per
pipeline stage of channel.py:183-203. -/
theorem process_ok_inv {db db' : ChanDB} {m : Data} {cid : Nat}
    {payload : Json} (h : process_msgC db m = (db', .ok (cid, payload))) :
    ∃ CIDToken CIDBox msgD keylist keyid pubkey2_s msgE row s,
      parse_msgC m = .ok (CIDToken, CIDBox, msgD)
      ∧ find_channel_list db CIDToken CIDBox = .ok keylist
      ∧ decrypt_msgD msgD keylist = .ok (some (keyid, pubkey2_s, msgE))
      ∧ db.lookup keyid.cid = some row
      ∧ check_msgE msgE pubkey2_s row.their_verfkey
          row.highest_inbound_seqnum = .ok (s, payload)
      ∧ validate_msgC row.my_CID_key keyid.priv s CIDBox CIDToken msgD
          = .ok ()
      ∧ cid = keyid.cid ∧ db' = updateHighest db keyid.cid s := by
  unfold process_msgC at h
  split at h <;> try simpa using h
  next CIDToken CIDBox msgD hparse =>
  split at h <;> try simpa using h
  next keylist hfind =>
  split at h <;> try simpa using h
  next keyid pubkey2_s msgE hdec =>
  split at h <;> try simpa using h
  next row hrow =>
  split at h <;> try simpa using h
  next s pl hcheck =>
  split at h <;> try simpa using h
  next hval =>
  simp only [Prod.mk.injEq, Except.ok.injEq] at h
  obtain ⟨hdb, hcid, hpl⟩ := h
  subst hpl
  exact ⟨CIDToken, CIDBox, msgD, keylist, keyid, pubkey2_s, msgE, row, s,
    hparse, hfind, hdec, hrow, hcheck, hval, hcid.symm, hdb.symm⟩

theorem findChannelScan_ok_none {box : Data} {rows : List AddressbookRow}
    {cpk : Option Data} (h : findChannelScan box rows = .ok (none, cpk)) :
    ∀ r ∈ rows, decrypt_CIDBox r.my_CID_key box = .error .cryptoError := by
  induction rows with
  | nil => simp
  | cons r l ih =>
    rw [findChannelScan] at h
    split at h
    · next hdec =>
      intro x hx
      rcases List.mem_cons.mp hx with rfl | hx
      · exact hdec
      · exact ih h x hx
    · next e he hne => simp at h
    · next s0 h0 c0 hdec =>
      split at h <;> simp at h

theorem updateRow_CID (cid s : Nat) (r : AddressbookRow) :
    (if r.id = cid then { r with highest_inbound_seqnum := s }
     else r).my_CID_key = r.my_CID_key := by
  by_cases h : r.id = cid <;> simp [h]

/-- C2: replay rejection with atomicity — re-running process_msgC on any
msgC it previously accepted yields Replay, and the failed call leaves the
database exactly as it was (the source performs no write before the raise:
channel.py:183-199 are reads and checks, the only UPDATE is line 200).
The replay is raised either by find_channel_from_CIDBox (channel.py:92-93,
when the updated row is the CIDBox hint row) or by the seqnum check of
check_msgE (channel.py:156-158). -/
theorem replay_rejection (db db' : ChanDB) (m : Data) (cid : Nat)
    (payload : Json) (h : process_msgC db m = (db', .ok (cid, payload))) :
    process_msgC db' m = (db', .error .replay) := by
  obtain ⟨tok, box, msgD, keylist, keyid, p2, msgE, row, s, hparse, hfind,
    hdec, hrow, hcheck, hval, hcid, hdb⟩ := process_ok_inv h
  subst hcid
  obtain ⟨hm, c, hdecrow⟩ := validate_ok_inv hval
  have hrowmem : row ∈ db.addressbook := List.mem_of_find?_eq_some hrow
  have hrowid : row.id = keyid.cid := ChanDB.lookup_id hrow
  rw [find_channel_list_eq] at hfind
  cases hE : find_channel_from_CIDBox db box with
  | error e => rw [hE] at hfind; simp at hfind
  | ok p =>
    obtain ⟨cid0, known⟩ := p
    rw [hE] at hfind
    cases cid0 with
    | none =>
      have hall := findChannelScan_ok_none
        (show findChannelScan box db.addressbook = .ok (none, known) from hE)
      rw [hall row hrowmem] at hdecrow
      simp at hdecrow
    | some i =>
      obtain ⟨pre, r0, rest, s0, h0, c0, hBdec, hpre, hr0, hs0, hieq, hkn⟩ :=
        findChannelScan_ok_some
          (show findChannelScan box db.addressbook = .ok (some i, known)
            from hE)
      subst hieq
      subst hkn
      simp only [Except.ok.injEq] at hfind
      have huniq := decrypt_CIDBox_ok_unique hr0 hdecrow
      obtain ⟨hs0s, hh0, hc0⟩ :
          s0 = s ∧ h0 = hm ∧ c0 = c := by simpa using huniq
      subst hs0s
      have hdbA : db'.addressbook
          = pre.map (fun r => if r.id = keyid.cid then
              { r with highest_inbound_seqnum := s0 } else r)
            ++ (fun r : AddressbookRow => if r.id = keyid.cid then
                { r with highest_inbound_seqnum := s0 } else r) r0
            :: rest.map (fun r => if r.id = keyid.cid then
                { r with highest_inbound_seqnum := s0 } else r) := by
        rw [hdb]
        show db.addressbook.map _ = _
        rw [hBdec]
        simp
      have hpre2 : ∀ x ∈ pre.map (fun r => if r.id = keyid.cid then
            { r with highest_inbound_seqnum := s0 } else r),
          decrypt_CIDBox x.my_CID_key box = .error .cryptoError := by
        intro x hx
        obtain ⟨r, hr, rfl⟩ := List.mem_map.mp hx
        simp only [updateRow_CID]
        exact hpre r hr
      by_cases hr0id : r0.id = keyid.cid
      · -- the accepted update hit the hint row: the CIDBox scan replays
        have hfr0 : (fun r : AddressbookRow => if r.id = keyid.cid then
            { r with highest_inbound_seqnum := s0 } else r) r0
            = { r0 with highest_inbound_seqnum := s0 } := by simp [hr0id]
        have hscan2 : findChannelScan box db'.addressbook
            = .error .replay := by
          rw [hdbA, findChannelScan_append_skip _ hpre2, hfr0,
            findChannelScan]
          have hkey0 : ({ r0 with highest_inbound_seqnum := s0 }
              : AddressbookRow).my_CID_key = r0.my_CID_key := rfl
          rw [hkey0, hr0]
          simp
        have hfl2 : find_channel_list db' tok box = .error .replay := by
          rw [find_channel_list_eq,
            show find_channel_from_CIDBox db' box = .error .replay
              from hscan2]
        show process_msgC db' m = _
        simp only [process_msgC, hparse, hfl2]
      · -- the hint row kept its seqnum: check_msgE replays
        have hfr0 : (fun r : AddressbookRow => if r.id = keyid.cid then
            { r with highest_inbound_seqnum := s0 } else r) r0 = r0 := by
          simp [hr0id]
        have hscan2 : findChannelScan box db'.addressbook
            = .ok (some r0.id, some c0) := by
          rw [hdbA, findChannelScan_append_skip _ hpre2, hfr0,
            findChannelScan, hr0]
          simp [hs0]
        have hfl2 : find_channel_list db' tok box = .ok keylist := by
          rw [find_channel_list_eq,
            show find_channel_from_CIDBox db' box = .ok (some r0.id, some c0)
              from hscan2]
          show Except.ok (filter_on_known_channel_pubkey
            (build_channel_keylist db' (some r0.id)) c0) = .ok keylist
          rw [hdb, build_channel_keylist_updateHighest, hfind]
        have hlook2 : db'.lookup keyid.cid
            = some { row with highest_inbound_seqnum := s0 } := by
          rw [hdb, lookup_updateHighest, hrow]
          simp [hrowid]
        have hcheck2 : check_msgE msgE p2 row.their_verfkey s0
            = .error .replay := check_msgE_ok_replay hcheck s0 le_rfl
        show process_msgC db' m = _
        simp only [process_msgC, hparse, hfl2, hdec, hlook2, hcheck2]

/-! ## C8: CID isolation -/

theorem findChannelScan_all_fail (key nonce : Nat) (body : Data)
    (rows : List AddressbookRow) (h : ∀ r ∈ rows, r.my_CID_key ≠ key) :
    findChannelScan (Data.sbox key nonce body) rows = .ok (none, none) := by
  induction rows with
  | nil => rfl
  | cons r l ih =>
    have hr : r.my_CID_key ≠ key := h r (by simp)
    have hk : ¬ key = r.my_CID_key := fun e => hr e.symm
    simp only [findChannelScan, decrypt_CIDBox, sboxDec, if_neg hk]
    exact ih (fun r hrl => h r (by simp [hrl]))

/-- C8: for every CIDBox produced under a CID key that does not appear as
my_CID_key in the given database, find_channel_from_CIDBox matches no
addressbook row and returns (None, None).  Every CIDBox the sender builds
is a secretbox under the peer's CID key (channel.py:324-326), so the
quantification over `Data.sbox key nonce body` covers all of them. -/
theorem cid_isolation (db : ChanDB) (key nonce : Nat) (body : Data)
    (h : ∀ r ∈ db.addressbook, r.my_CID_key ≠ key) :
    find_channel_from_CIDBox db (Data.sbox key nonce body) = .ok (none, none) :=
  findChannelScan_all_fail key nonce body db.addressbook h

/-- A concrete addressbook row used by witnesses. -/
def sampleRow : AddressbookRow :=
  { id := 1, petname := "p", acked := true, my_signkey := 10,
    their_verfkey := 11, my_CID_key := 30,
    their_channel_record := ⟨20, 31, []⟩,
    my_old_channel_privkey := 21, my_new_channel_privkey := 21,
    they_used_new_channel_key := false, next_outbound_seqnum := 1,
    highest_inbound_seqnum := 0, next_CID_token := none }

/-- Witness for C8: a concrete database holding only a row keyed 30 sees
nothing in a CIDBox sealed under key 99. -/
theorem cid_isolation_witness :
    find_channel_from_CIDBox ⟨[sampleRow]⟩ (Data.sbox 99 7 (Data.lit "x"))
      = .ok (none, none) :=
  cid_isolation _ 99 7 (Data.lit "x") (by decide)

/-! ## C6: check_msgE on a verifying but non-binding inner signature -/

/-- C6 (code bug): a msgE whose leading netstring verifies under the
peer's verify key with prefix "ce0:" but whose signed plaintext is the
encoding of key pair 41 while pubkey2 from msgD is the encoding of key
pair 40.  The claim (and spec section 7) say WrongVerfkey is raised; the
source instead executes `print repr(m), pubkey2_s(m)` (channel.py:162),
which calls the byte string pubkey2_s as a function and raises TypeError
before the `raise WrongVerfkeyError()` on line 163 is reached.  No payload
is returned either way. -/
theorem check_msgE_wrong_binding_raises_typeerror :
    check_msgE
      (Data.cat (Data.seq8 1)
        (Data.cat
          (Data.nstr (Data.sgn 10 (Data.cat (Data.lit "ce0:") (Data.pk 41))))
          (Data.jsond ⟨"x"⟩)))
      (Data.pk 40) 10 0
      = .error ChanErr.typeError
    ∧ ChanErr.typeError ≠ ChanErr.wrongVerfkey := by
  exact ⟨rfl, by decide⟩

/-! ## C3: key-trial order and they_used_new_channel_key -/

/-- A's row 1 for B: the published channel record names B's NEW channel
key pair 20 and B's CID key 30. -/
def rowA3 : AddressbookRow :=
  { id := 1, petname := "b", acked := true, my_signkey := 10,
    their_verfkey := 11, my_CID_key := 31,
    their_channel_record := ⟨20, 30, []⟩,
    my_old_channel_privkey := 21, my_new_channel_privkey := 21,
    they_used_new_channel_key := false, next_outbound_seqnum := 1,
    highest_inbound_seqnum := 0, next_CID_token := none }

/-- B's row 5 for A, after a key rotation so that my_old_channel_privkey
(22) differs from my_new_channel_privkey (20). -/
def rowB3 : AddressbookRow :=
  { id := 5, petname := "a", acked := true, my_signkey := 11,
    their_verfkey := 10, my_CID_key := 30,
    their_channel_record := ⟨21, 31, []⟩,
    my_old_channel_privkey := 22, my_new_channel_privkey := 20,
    they_used_new_channel_key := false, next_outbound_seqnum := 1,
    highest_inbound_seqnum := 0, next_CID_token := none }

/-- Sender-side database. -/
def dbA3 : ChanDB := ⟨[rowA3]⟩

/-- Receiver-side database. -/
def dbB3 : ChanDB := ⟨[rowB3]⟩

def pay3 : Json := ⟨"hi-there"⟩

/-- The msgC A sends to B (ephemeral key pair 40, nonces 50 and 51). -/
def msgC3 : Data := ((createMsgC dbA3 1 pay3 40 50 51).2).getD (Data.lit "")

/-- The msgE inside msgC3. -/
def msgE3 : Data :=
  Data.cat (Data.seq8 1)
    (Data.cat (Data.nstr (Data.sgn 10 (Data.cat (Data.lit "ce0:") (Data.pk 40))))
      (Data.jsond pay3))

/-- The boxed part of msgD inside msgC3: encrypted to B's NEW key 20. -/
def enc3 : Data := Data.box (Data.pk 20) 40 50 msgE3

/-- C3 (code bug): on the process_msgC path the candidate key list yields
the OLD channel private key before the NEW one (channel.py:109-114), and
process_msgC never writes they_used_new_channel_key (its only UPDATE is
the seqnum one, channel.py:200-201).  Concretely: B's row has old key 22
and new key 20; A's message is boxed to the new key (only the new key
opens it, so the winning candidate is "new"); the message is accepted, yet
they_used_new_channel_key remains 0.  The spec (sections 4.5 step 7 and 9)
and the claim require new-before-old and setting the flag — which the
legacy InboundChannel.msgC2_received path (channel.py:224-243) does, but
the authoritative process_msgC path does not. -/
theorem keylist_old_first_and_flag_never_set :
    build_channel_keylist dbB3 (some 5)
      = [⟨22, 5, Which.old⟩, ⟨20, 5, Which.new⟩]
    ∧ (parse_msgC msgC3).toOption.map (fun t => t.2.2)
        = some (Data.cat (Data.pk 40) enc3)
    ∧ boxDec 22 (Data.pk 40) enc3 = none
    ∧ boxDec 20 (Data.pk 40) enc3 = some msgE3
    ∧ (process_msgC dbB3 msgC3).2 = .ok (5, pay3)
    ∧ ((process_msgC dbB3 msgC3).1.lookup 5).map
        (fun r => r.they_used_new_channel_key) = some false := by
  exact ⟨by decide, rfl, by decide, by decide, rfl, rfl⟩

/-! ## C7: monotone sequence numbers -/

/-- C7: (send side) with the row present and the counter packable, one
createMsgC call reads next_outbound_seqnum, commits exactly
next_outbound_seqnum + 1 back (so the counter strictly increases across
any sequence of calls), and the built msgC is `builtMsgC res ...`, which
embeds the pre-increment value as `Data.seq8 res.next_outbound_seqnum`
(the 8-byte big-endian seqnum) in msgE, in the CIDBox plaintext and in the
CIDToken derivation.  (Receive side) every accepted process_msgC call
moves highest_inbound_seqnum of the matched row from its old value to the
accepted seqnum `s`, with old < s — hence across any sequence of accepted
calls the field strictly increases and always equals the largest accepted
seqnum. -/
theorem monotone_seqnums :
    (∀ (db : ChanDB) (cid : Nat) (res : AddressbookRow) (payload : Json)
        (privkey2 nonceD nonceC : Nat),
      db.lookup cid = some res → res.next_outbound_seqnum < 2 ^ 64 →
      createMsgC db cid payload privkey2 nonceD nonceC
          = (updateNextOutbound db cid (res.next_outbound_seqnum + 1),
             some (builtMsgC res payload privkey2 nonceD nonceC))
        ∧ ((updateNextOutbound db cid
              (res.next_outbound_seqnum + 1)).lookup cid).map
            (fun r => r.next_outbound_seqnum)
          = some (res.next_outbound_seqnum + 1))
  ∧ (∀ (db db' : ChanDB) (m : Data) (cid : Nat) (payload : Json),
      process_msgC db m = (db', .ok (cid, payload)) →
      ∃ row s, db.lookup cid = some row
        ∧ row.highest_inbound_seqnum < s
        ∧ db' = updateHighest db cid s
        ∧ db'.lookup cid = some { row with highest_inbound_seqnum := s }) := by
  constructor
  · intro db cid res payload k2 nD nC hrow hb
    refine ⟨createMsgC_eq payload k2 nD nC hrow hb, ?_⟩
    rw [lookup_updateNextOutbound, hrow]
    simp [ChanDB.lookup_id hrow]
  · intro db db' m cid payload h
    obtain ⟨tok, box, msgD, keylist, keyid, p2, msgE, row, s, hp, hf, hd,
      hrow, hc, hv, hcid, hdb⟩ := process_ok_inv h
    subst hcid
    obtain ⟨hlt, -⟩ := check_msgE_ok_inv hc
    refine ⟨row, s, hrow, hlt, hdb, ?_⟩
    rw [hdb, lookup_updateHighest, hrow]
    simp [ChanDB.lookup_id hrow]

/-- Witness for C7 at the concrete databases of the C3 scenario: one send
from A's row 1 (counter 1 → 2, message embedding seqnum 1) and the
accepted receive on B's row 5 (highest 0 → 1). -/
theorem monotone_seqnums_witness :
    (createMsgC dbA3 1 pay3 40 50 51
        = (updateNextOutbound dbA3 1 (rowA3.next_outbound_seqnum + 1),
           some (builtMsgC rowA3 pay3 40 50 51))
      ∧ ((updateNextOutbound dbA3 1
            (rowA3.next_outbound_seqnum + 1)).lookup 1).map
          (fun r => r.next_outbound_seqnum)
        = some (rowA3.next_outbound_seqnum + 1))
    ∧ (∃ row s, dbB3.lookup 5 = some row
        ∧ row.highest_inbound_seqnum < s
        ∧ updateHighest dbB3 5 1 = updateHighest dbB3 5 s
        ∧ (updateHighest dbB3 5 1).lookup 5
            = some { row with highest_inbound_seqnum := s }) :=
  ⟨monotone_seqnums.1 dbA3 1 rowA3 pay3 40 50 51 rfl (by decide),
   monotone_seqnums.2 dbB3 (updateHighest dbB3 5 1) msgC3 5 pay3 rfl⟩

/-! ## C1: channel round-trip -/

/-- C1: round-trip over an established addressbook pair.  The hypotheses
state what the invitation protocol establishes (invitation.py:356-380 on
both sides, spec sections 3 and 4.3): A's row `rowA` (under `cidA` in A's
database) carries B's published channel record, whose channel_pubkey is
B's channel key pair (old = new at pairing time) and whose CID_key is B's
my_CID_key; B's row `rowB` stores A's verify key; B's rowid is nonzero
(sqlite rowids start at 1) and earlier rows of B's addressbook share
neither its CID key nor its id (CID keys are independent 32-byte random
values, ids are unique rowids); counters are in the paired state
next_outbound_A = highest_inbound_B + 1 (1 and 0 at pairing, preserved by
lossless alternation).  Conclusion: A's createMsgC yields a msgC that B's
process_msgC accepts as (rowB.id, payload) — B's addressbook id for A and
the original payload — and rowB's highest_inbound_seqnum increments by
exactly 1, to the seqnum carried in the message. -/
theorem channel_roundtrip
    (dbA dbB : ChanDB) (cidA : Nat) (rowA rowB : AddressbookRow)
    (pre post : List AddressbookRow) (payload : Json) (k2 nD nC : Nat)
    (hA : dbA.lookup cidA = some rowA)
    (hB : dbB.addressbook = pre ++ rowB :: post)
    (hpreK : ∀ r ∈ pre, r.my_CID_key ≠ rowB.my_CID_key)
    (hpreI : ∀ r ∈ pre, r.id ≠ rowB.id)
    (hid0 : rowB.id ≠ 0)
    (hcid : rowA.their_channel_record.CID_key = rowB.my_CID_key)
    (hpk : rowA.their_channel_record.channel_pubkey
             = rowB.my_new_channel_privkey)
    (hold : rowB.my_old_channel_privkey = rowB.my_new_channel_privkey)
    (hvk : rowB.their_verfkey = rowA.my_signkey)
    (hseq : rowA.next_outbound_seqnum = rowB.highest_inbound_seqnum + 1)
    (hbound : rowA.next_outbound_seqnum < 2 ^ 64) :
    (createMsgC dbA cidA payload k2 nD nC).2
        = some (builtMsgC rowA payload k2 nD nC)
    ∧ process_msgC dbB (builtMsgC rowA payload k2 nD nC)
        = (updateHighest dbB rowB.id rowA.next_outbound_seqnum,
           .ok (rowB.id, payload))
    ∧ (updateHighest dbB rowB.id rowA.next_outbound_seqnum).lookup rowB.id
        = some { rowB with highest_inbound_seqnum :=
                   rowB.highest_inbound_seqnum + 1 } := by
  have hdecB : decrypt_CIDBox rowB.my_CID_key
      (builtCIDBox rowA payload k2 nD nC)
      = .ok (rowA.next_outbound_seqnum,
             Data.hashd (builtMsgD rowA payload k2 nD),
             Data.pk rowA.their_channel_record.channel_pubkey) := by
    simp [builtCIDBox, decrypt_CIDBox, sboxDec, hcid]
  have hprefail : ∀ r ∈ pre, decrypt_CIDBox r.my_CID_key
      (builtCIDBox rowA payload k2 nD nC) = .error .cryptoError := by
    intro r hr
    have hne := hpreK r hr
    simp [builtCIDBox, decrypt_CIDBox, sboxDec, hcid, Ne.symm hne]
  have hguard : ¬ rowA.next_outbound_seqnum ≤ rowB.highest_inbound_seqnum := by
    rw [hseq]
    exact Nat.not_succ_le_self _
  have hscan : find_channel_from_CIDBox dbB (builtCIDBox rowA payload k2 nD nC)
      = .ok (some rowB.id,
             some (Data.pk rowA.their_channel_record.channel_pubkey)) := by
    unfold find_channel_from_CIDBox
    rw [hB, findChannelScan_append_skip _ hprefail]
    rw [findChannelScan, hdecB]
    simp [hguard]
  have hbuild : build_channel_keylist dbB (some rowB.id)
      = rowKeylist rowB
        ++ ((post.filter (fun r => r.id = rowB.id)).map rowKeylist).flatten := by
    unfold build_channel_keylist
    rw [if_pos (by simpa using hid0), hB, List.filter_append]
    rw [List.filter_eq_nil_iff.mpr (fun r hr => by simpa using hpreI r hr)]
    simp
  have hheadfil : filter_on_known_channel_pubkey (rowKeylist rowB)
      (Data.pk rowA.their_channel_record.channel_pubkey)
      = rowKeylist rowB := by
    simp [filter_on_known_channel_pubkey, rowKeylist, hpk, hold]
  have hkl : ∃ tail,
      filter_on_known_channel_pubkey (build_channel_keylist dbB (some rowB.id))
        (Data.pk rowA.their_channel_record.channel_pubkey)
      = ⟨rowB.my_old_channel_privkey, rowB.id, Which.old⟩ :: tail := by
    rw [hbuild]
    unfold filter_on_known_channel_pubkey at hheadfil ⊢
    rw [List.filter_append, hheadfil]
    exact ⟨_, rfl⟩
  have hfl : find_channel_list dbB
      (Data.hkdfCID rowA.their_channel_record.CID_key
        rowA.next_outbound_seqnum)
      (builtCIDBox rowA payload k2 nD nC)
      = .ok (filter_on_known_channel_pubkey
          (build_channel_keylist dbB (some rowB.id))
          (Data.pk rowA.their_channel_record.channel_pubkey)) := by
    rw [find_channel_list_eq, hscan]
  obtain ⟨tail, htail⟩ := hkl
  have hdecD : decrypt_msgD (builtMsgD rowA payload k2 nD)
      (filter_on_known_channel_pubkey
        (build_channel_keylist dbB (some rowB.id))
        (Data.pk rowA.their_channel_record.channel_pubkey))
      = .ok (some (⟨rowB.my_old_channel_privkey, rowB.id, Which.old⟩,
             Data.pk k2, builtMsgE rowA payload k2)) := by
    rw [htail]
    simp [decrypt_msgD, builtMsgD, trialDecrypt, boxDec, hpk, hold]
  have hlook : dbB.lookup rowB.id = some rowB := by
    unfold ChanDB.lookup
    rw [hB, find?_skip _ _ _ (fun r hr => by simpa using hpreI r hr)]
    simp [List.find?]
  have hcheck : check_msgE (builtMsgE rowA payload k2) (Data.pk k2)
      rowB.their_verfkey rowB.highest_inbound_seqnum
      = .ok (rowA.next_outbound_seqnum, payload) := by
    simp [builtMsgE, check_msgE, verifyWithPfx, verifySgn, hvk, hguard]
  have hval : validate_msgC rowB.my_CID_key rowB.my_old_channel_privkey
      rowA.next_outbound_seqnum (builtCIDBox rowA payload k2 nD nC)
      (Data.hkdfCID rowA.their_channel_record.CID_key
        rowA.next_outbound_seqnum)
      (builtMsgD rowA payload k2 nD) = .ok () := by
    simp [validate_msgC, hdecB, build_CIDToken, hpk, hold, hcid]
  refine ⟨by rw [createMsgC_eq payload k2 nD nC hA hbound], ?_, ?_⟩
  · show process_msgC dbB (builtMsgC rowA payload k2 nD nC) = _
    have hparse : parse_msgC (builtMsgC rowA payload k2 nD nC)
        = .ok (Data.hkdfCID rowA.their_channel_record.CID_key
                 rowA.next_outbound_seqnum,
               builtCIDBox rowA payload k2 nD nC,
               builtMsgD rowA payload k2 nD) := rfl
    simp only [process_msgC, hparse, hfl, hdecD, hlook, hcheck, hval]
  · rw [lookup_updateHighest, hlook]
    simp [hseq]

/-- A's addressbook row in the freshly paired state (old = new, counters
1 / 0). -/
def rowA1 : AddressbookRow :=
  { id := 1, petname := "b", acked := true, my_signkey := 10,
    their_verfkey := 11, my_CID_key := 31,
    their_channel_record := ⟨20, 30, []⟩,
    my_old_channel_privkey := 21, my_new_channel_privkey := 21,
    they_used_new_channel_key := false, next_outbound_seqnum := 1,
    highest_inbound_seqnum := 0, next_CID_token := none }

/-- B's addressbook row in the freshly paired state. -/
def rowB1 : AddressbookRow :=
  { id := 5, petname := "a", acked := true, my_signkey := 11,
    their_verfkey := 10, my_CID_key := 30,
    their_channel_record := ⟨21, 31, []⟩,
    my_old_channel_privkey := 20, my_new_channel_privkey := 20,
    they_used_new_channel_key := false, next_outbound_seqnum := 1,
    highest_inbound_seqnum := 0, next_CID_token := none }

/-- Witness for C1 on the freshly paired single-row databases. -/
theorem channel_roundtrip_witness :
    (createMsgC ⟨[rowA1]⟩ 1 pay3 40 50 51).2
        = some (builtMsgC rowA1 pay3 40 50 51)
    ∧ process_msgC ⟨[rowB1]⟩ (builtMsgC rowA1 pay3 40 50 51)
        = (updateHighest ⟨[rowB1]⟩ rowB1.id rowA1.next_outbound_seqnum,
           .ok (rowB1.id, pay3))
    ∧ (updateHighest ⟨[rowB1]⟩ rowB1.id
        rowA1.next_outbound_seqnum).lookup rowB1.id
        = some { rowB1 with highest_inbound_seqnum :=
                   rowB1.highest_inbound_seqnum + 1 } :=
  channel_roundtrip ⟨[rowA1]⟩ ⟨[rowB1]⟩ 1 rowA1 rowB1 [] [] pay3 40 50 51
    rfl rfl (by decide) (by decide) (by decide) rfl rfl rfl rfl rfl
    (by decide)

/-- Witness for C2: after B accepts A's first message (seqnum 1), feeding
the identical msgC once more yields Replay and the unchanged database. -/
theorem replay_rejection_witness :
    process_msgC (updateHighest ⟨[rowB1]⟩ 5 1)
        (builtMsgC rowA1 pay3 40 50 51)
      = (updateHighest ⟨[rowB1]⟩ 5 1, .error .replay) :=
  replay_rejection ⟨[rowB1]⟩ (updateHighest ⟨[rowB1]⟩ 5 1)
    (builtMsgC rowA1 pay3 40 50 51) 5 pay3 rfl

/-! ## C10: messagesReceived on an unknown inviteID -/

/-- C10: when no invitations row carries the given inviteID,
InvitationManager.messagesReceived raises KeyError for any message set,
processes nothing, sends nothing and leaves the database unchanged
(invitation.py:79-84: the raise happens before any Invitation is
constructed). -/
theorem messagesReceived_unknown_inviteID (db : InvDB) (inviteID : Nat)
    (messages : List Data) (n1 n2 n3 : Nat)
    (h : ∀ r ∈ db.invitations, r.inviteID ≠ inviteID) :
    messagesReceived db inviteID messages n1 n2 n3
      = ⟨db, [], false, some InvErr.keyError⟩ := by
  unfold messagesReceived
  rw [find?_eq_none_of _ _ (by simpa using h)]

/-- A concrete invitation row used by witnesses. -/
def sampleInvRow : InvitationRow :=
  { id := 1, petname := "p", inviteKey := 2, inviteID := 3,
    myTempPrivkey := 4, mySigningKey := 5,
    my_channel_record := ⟨20, 30, []⟩,
    my_private_channel_data := ⟨5, 30, 20, 20, []⟩,
    theirTempPubkey := none, myMessages := [], theirMessages := [],
    nextExpectedMessage := 1, addressbook_id := none }

/-- Witness for C10 at a concrete database whose single invitation row has
inviteID 3, polled for inviteID 4. -/
theorem messagesReceived_unknown_inviteID_witness :
    messagesReceived ⟨[sampleInvRow], [], 1⟩ 4 [Data.lit "junk"] 0 0 0
      = ⟨⟨[sampleInvRow], [], 1⟩, [], false, some InvErr.keyError⟩ :=
  messagesReceived_unknown_inviteID _ 4 _ 0 0 0 (by decide)

/-! ## C5: invitation failure handling -/

theorem decodeWire_wireMsg (k : Nat) (m : Data) :
    decodeWire k (wireMsg k m) = some m := by
  simp [decodeWire, wireMsg]

/-- A pending invitation at stage 2 (M1 already exchanged): the peer's
temp key is key pair 60, mine is key pair 4. -/
def invRow5 : InvitationRow :=
  { id := 1, petname := "p", inviteKey := 2, inviteID := 3,
    myTempPrivkey := 4, mySigningKey := 5,
    my_channel_record := ⟨20, 30, []⟩,
    my_private_channel_data := ⟨5, 30, 20, 20, []⟩,
    theirTempPubkey := some (Data.pk 60),
    myMessages := [], theirMessages := [],
    nextExpectedMessage := 2, addressbook_id := none }

def db5 : InvDB := ⟨[invRow5], [], 1⟩

/-- A correctly signed and sealed M2 whose embedded peer_temp_pub field is
the encoding of key 999 instead of my actual temp public key (key 4):
both binding checks cannot hold. -/
def w5 : Data :=
  wireMsg 2 (Data.cat (Data.lit "i0:m2:")
    (Data.box (Data.pk 4) 60 77
      (Data.cat (Data.lit "i0:m2a:")
        (Data.cat (Data.vkey 61)
          (Data.sgn 61 (Data.cat (Data.pk 999)
            (Data.cat (Data.pk 4) (Data.crecd ⟨21, 31, []⟩))))))))

/-- C5: neither failure path unsubscribes, against the claim's
"unsubscribe and abandon" consequence for both.
(i) If any new message of a batch fails the r0: framing/signature check,
the except block of invitation.py:245-251 calls
`self.unsubscribe(self.inviteID)` — an attribute the Invitation class
does not define (only InvitationManager has an unsubscribe method;
processM3 goes through self.manager.unsubscribe), so AttributeError
propagates out of processMessages: nothing is committed (the result
database is the input one), only the crash-recovery resends were sent,
and no unsubscribe happens.
(ii) If an M2 passes the frame check, opens and verifies, but its
embedded peer_temp_pub differs from my actual temp public key, the
ValueError of invitation.py:350 propagates uncaught (the try/except only
covers the frame checks): nothing is committed, only the resends were
sent, and again the invitation layer does NOT unsubscribe. -/
theorem invitation_failure_no_unsubscribe :
    (∀ (db : InvDB) (iid : Nat) (messages : List Data) (n1 n2 n3 : Nat)
        (row : InvitationRow),
      db.invLookup iid = some row →
      ¬ (sdiff (sdiff messages row.myMessages) row.theirMessages).all
          (fun m => (decodeWire row.inviteKey m).isSome) →
      processMessages db iid messages n1 n2 n3
        = ⟨db, sdiff row.myMessages messages, false,
            some InvErr.attributeError⟩)
  ∧ (∀ (db : InvDB) (iid n1 n2 n3 fromK vkid nonce : Nat)
        (cm ct : Data) (rec : ChannelRecord) (row : InvitationRow),
      db.invLookup iid = some row →
      row.nextExpectedMessage = 2 →
      row.theirTempPubkey = some (Data.pk fromK) →
      wireMsg row.inviteKey (Data.cat (Data.lit "i0:m2:")
          (Data.box (Data.pk row.myTempPrivkey) fromK nonce
            (Data.cat (Data.lit "i0:m2a:")
              (Data.cat (Data.vkey vkid)
                (Data.sgn vkid (Data.cat cm
                  (Data.cat ct (Data.crecd rec))))))))
          ∉ row.myMessages →
      wireMsg row.inviteKey (Data.cat (Data.lit "i0:m2:")
          (Data.box (Data.pk row.myTempPrivkey) fromK nonce
            (Data.cat (Data.lit "i0:m2a:")
              (Data.cat (Data.vkey vkid)
                (Data.sgn vkid (Data.cat cm
                  (Data.cat ct (Data.crecd rec))))))))
          ∉ row.theirMessages →
      cm ≠ Data.pk row.myTempPrivkey →
      processMessages db iid
          [wireMsg row.inviteKey (Data.cat (Data.lit "i0:m2:")
            (Data.box (Data.pk row.myTempPrivkey) fromK nonce
              (Data.cat (Data.lit "i0:m2a:")
                (Data.cat (Data.vkey vkid)
                  (Data.sgn vkid (Data.cat cm
                    (Data.cat ct (Data.crecd rec))))))))]
          n1 n2 n3
        = ⟨db, sdiff row.myMessages
            [wireMsg row.inviteKey (Data.cat (Data.lit "i0:m2:")
              (Data.box (Data.pk row.myTempPrivkey) fromK nonce
                (Data.cat (Data.lit "i0:m2a:")
                  (Data.cat (Data.vkey vkid)
                    (Data.sgn vkid (Data.cat cm
                      (Data.cat ct (Data.crecd rec))))))))],
            false, some (InvErr.valueError "binding failure myTempPubkey")⟩) := by
  constructor
  · intro db iid messages n1 n2 n3 row hrow hbad
    simp only [processMessages, hrow]
    rw [if_pos hbad]
  · intro db iid n1 n2 n3 fromK vkid nonce cm ct rec row hrow hnext hpub
      hw1 hw2 hcm
    have hrid : row.id = iid := by
      have := List.find?_some hrow
      simpa using this
    simp [processMessages, hrow, hrid, sdiff, decodeWire_wireMsg,
      dispatchStages, stageSeq, runHandler, findBody, processM2, boxDec,
      verifySgn, hnext, hpub, hcm, hw1, hw2]

/-- Witness for C5: a corrupt frame ("zzz") raises AttributeError with
nothing committed and no unsubscribe; the binding-failing w5 errors
without unsubscribing either. -/
theorem invitation_failure_no_unsubscribe_witness :
    processMessages db5 1 [Data.lit "zzz"] 0 0 0
        = ⟨db5, [], false, some InvErr.attributeError⟩
    ∧ processMessages db5 1 [w5] 0 0 0
        = ⟨db5, [], false,
           some (InvErr.valueError "binding failure myTempPubkey")⟩ :=
  ⟨invitation_failure_no_unsubscribe.1 db5 1 [Data.lit "zzz"] 0 0 0 invRow5
      rfl (by decide),
   invitation_failure_no_unsubscribe.2 db5 1 0 0 0 60 61 77 (Data.pk 999)
      (Data.pk 4) ⟨21, 31, []⟩ invRow5 rfl rfl rfl (by decide) (by decide)
      (by decide)⟩

/-! ## C4: rendezvous idempotence and resend -/

theorem mem_sdiff {a b : List Data} {m : Data} :
    m ∈ sdiff a b ↔ m ∈ a ∧ m ∉ b := by
  simp [sdiff]

theorem mem_sunion {a b : List Data} {m : Data} :
    m ∈ sunion a b ↔ m ∈ a ∨ m ∈ b := by
  simp [sunion]
  tauto

theorem mem_sinsert_of_mem {a : List Data} {m x : Data} (h : x ∈ a) :
    x ∈ sinsert a m := by
  unfold sinsert
  split
  · exact h
  · exact List.mem_append_left _ h

theorem sunion_nil (a : List Data) : sunion a [] = a := by
  simp [sunion]

theorem sdiff_eq_nil {a b : List Data} (h : ∀ m ∈ a, m ∈ b) :
    sdiff a b = [] := by
  unfold sdiff
  rw [List.filter_eq_nil_iff]
  intro m hm
  simp [h m hm]

theorem InvDB.invLookup_id {db : InvDB} {iid : Nat} {row : InvitationRow}
    (h : db.invLookup iid = some row) : row.id = iid := by
  have := List.find?_some h
  simpa using this

theorem invLookup_updateInvFinal (db : InvDB) (iid : Nat)
    (my their : List Data) (next : Nat) (j : Nat) :
    (updateInvFinal db iid my their next).invLookup j
      = (db.invLookup j).map (fun r =>
          if r.id = iid then
            { r with myMessages := my, theirMessages := their,
                     nextExpectedMessage := next }
          else r) := by
  show (db.invitations.map _).find? _ = _
  rw [List.find?_map]
  have hp : ((fun r => decide (r.id = j)) ∘ fun r : InvitationRow =>
        if r.id = iid then
          { r with myMessages := my, theirMessages := their,
                   nextExpectedMessage := next }
        else r)
      = fun r : InvitationRow => decide (r.id = j) := by
    funext r
    by_cases hr : r.id = iid <;> simp [hr]
  rw [hp]
  rfl

theorem updateInvFinal_idem (db : InvDB) (iid : Nat)
    (my their : List Data) (next : Nat) :
    updateInvFinal (updateInvFinal db iid my their next) iid my their next
      = updateInvFinal db iid my their next := by
  unfold updateInvFinal
  simp only [List.map_map]
  congr 1
  apply List.map_congr_left
  intro r _
  by_cases hr : r.id = iid <;> simp [hr]

theorem dispatch_nil (s : InvSession) (eff : InvEffects) (n1 n2 n3 : Nat) :
    dispatchStages s eff [] n1 n2 n3 = (s, eff, none) := by
  simp [dispatchStages, stageSeq, runHandler, findBody]

/-- Invariants of one dispatch stage relative to the incoming session and
effects: the invitation identity is preserved, theirMessages is only
written by the final UPDATE of processMessages (never by a handler),
myMessages only grows (invitation.py:289 set.add), and sendToAll calls
are only appended. -/
def StageFacts (s : InvSession) (eff : InvEffects)
    (r : InvSession × InvEffects × Option InvErr) : Prop :=
  r.1.iid = s.iid
  ∧ r.1.theirMessages = s.theirMessages
  ∧ (∀ x ∈ s.myMessages, x ∈ r.1.myMessages)
  ∧ (∃ extra, r.2.1.sent = eff.sent ++ extra)

theorem stageFacts_refl (s : InvSession) (eff : InvEffects)
    (e : Option InvErr) : StageFacts s eff (s, eff, e) :=
  ⟨rfl, rfl, fun _ hx => hx, [], (List.append_nil _).symm⟩

theorem stageFacts_trans {s : InvSession} {eff : InvEffects}
    {s1 : InvSession} {eff1 : InvEffects} {e1 : Option InvErr}
    {r : InvSession × InvEffects × Option InvErr}
    (h1 : StageFacts s eff (s1, eff1, e1)) (h2 : StageFacts s1 eff1 r) :
    StageFacts s eff r := by
  obtain ⟨a1, b1, c1, x1, d1⟩ := h1
  obtain ⟨a2, b2, c2, x2, d2⟩ := h2
  refine ⟨a2.trans a1, b2.trans b1, fun x hx => c2 x (c1 x hx),
    x1 ++ x2, ?_⟩
  rw [d2, d1, List.append_assoc]

theorem processM1_facts (n : Nat) (s : InvSession) (eff : InvEffects)
    (m : Data) : StageFacts s eff (processM1 n s eff m) := by
  simp only [processM1, invSend, reduceIte]
  repeat' split
  all_goals
    first
      | exact ⟨rfl, rfl, fun _ hx => hx, [], (List.append_nil _).symm⟩
      | exact ⟨rfl, rfl, fun _ hx => mem_sinsert_of_mem hx, _, rfl⟩

theorem processM2_facts (n : Nat) (s : InvSession) (eff : InvEffects)
    (m : Data) : StageFacts s eff (processM2 n s eff m) := by
  simp only [processM2, invSend, reduceIte]
  repeat' split
  all_goals
    first
      | exact ⟨rfl, rfl, fun _ hx => hx, [], (List.append_nil _).symm⟩
      | exact ⟨rfl, rfl, fun _ hx => mem_sinsert_of_mem hx, _, rfl⟩

theorem processM3_facts (n : Nat) (s : InvSession) (eff : InvEffects)
    (m : Data) : StageFacts s eff (processM3 n s eff m) := by
  simp only [processM3, invSend, Bool.false_eq_true, reduceIte, if_false]
  repeat' split
  all_goals
    first
      | exact ⟨rfl, rfl, fun _ hx => hx, [], (List.append_nil _).symm⟩
      | exact ⟨rfl, rfl, fun _ hx => hx, _, rfl⟩

theorem runHandler_facts (pfx : String) (bodies : List Data)
    (h : InvSession → InvEffects → Data →
      InvSession × InvEffects × Option InvErr)
    (s : InvSession) (eff : InvEffects)
    (hh : ∀ s eff m, StageFacts s eff (h s eff m)) :
    StageFacts s eff (runHandler pfx bodies h s eff) := by
  unfold runHandler
  split
  · exact hh _ _ _
  · exact stageFacts_refl s eff none

theorem stageSeq_facts {s : InvSession} {eff : InvEffects}
    {r : InvSession × InvEffects × Option InvErr}
    {f : InvSession → InvEffects → InvSession × InvEffects × Option InvErr}
    (hr : StageFacts s eff r)
    (hf : ∀ s' eff', StageFacts s' eff' (f s' eff')) :
    StageFacts s eff (stageSeq r f) := by
  obtain ⟨s1, eff1, e1⟩ := r
  cases e1 with
  | some e => exact hr
  | none => exact stageFacts_trans hr (hf s1 eff1)

theorem dispatchStages_facts (s : InvSession) (eff : InvEffects)
    (bodies : List Data) (n1 n2 n3 : Nat) :
    StageFacts s eff (dispatchStages s eff bodies n1 n2 n3) := by
  unfold dispatchStages
  refine stageSeq_facts (stageSeq_facts ?_ ?_) ?_
  · split_ifs
    · exact runHandler_facts _ _ _ _ _ (processM1_facts n1)
    · exact stageFacts_refl s eff none
  · intro s1 eff1
    split_ifs
    · exact runHandler_facts _ _ _ _ _ (processM2_facts n2)
    · exact stageFacts_refl s1 eff1 none
  · intro s2 eff2
    split_ifs
    · exact runHandler_facts _ _ _ _ _ (processM3_facts n3)
    · exact stageFacts_refl s2 eff2 none

/-- A processMessages call whose batch brings no new messages: the frame
check is vacuous, no handler fires, and the final UPDATE rewrites the
row's three columns with their current values. -/
theorem processMessages_no_new (db : InvDB) (iid : Nat)
    (batch : List Data) (n1 n2 n3 : Nat) (row : InvitationRow)
    (hrow : db.invLookup iid = some row)
    (hnew : sdiff (sdiff batch row.myMessages) row.theirMessages = []) :
    processMessages db iid batch n1 n2 n3
      = ⟨updateInvFinal db row.id row.myMessages
           (sunion row.theirMessages []) row.nextExpectedMessage,
         sdiff row.myMessages batch, false, none⟩ := by
  simp only [processMessages, hrow, hnew]
  rw [if_neg (by simp)]
  simp only [List.filterMap_nil, dispatch_nil]

/-- A pending invitation at stage 1 with nothing sent or seen yet. -/
def invRow4 : InvitationRow :=
  { id := 1, petname := "p", inviteKey := 2, inviteID := 3,
    myTempPrivkey := 4, mySigningKey := 5,
    my_channel_record := ⟨20, 30, []⟩,
    my_private_channel_data := ⟨5, 30, 20, 20, []⟩,
    theirTempPubkey := none, myMessages := [], theirMessages := [],
    nextExpectedMessage := 1, addressbook_id := none }

def db4 : InvDB := ⟨[invRow4], [], 1⟩

/-- A well-signed M1 carrying the peer's temp public key (key pair 60). -/
def wM1 : Data := wireMsg 2 (Data.cat (Data.lit "i0:m1:") (Data.pk 60))

/-- A well-signed, well-sealed M2 whose embedded peer_temp_pub (key 999)
fails the binding check. -/
def wM2bad : Data :=
  wireMsg 2 (Data.cat (Data.lit "i0:m2:")
    (Data.box (Data.pk 4) 60 77
      (Data.cat (Data.lit "i0:m2a:")
        (Data.cat (Data.vkey 61)
          (Data.sgn 61 (Data.cat (Data.pk 999)
            (Data.cat (Data.pk 60) (Data.crecd ⟨21, 31, []⟩))))))))

/-- Counterexample to C4: deliver the batch containing a valid M1 together
with a binding-failing M2 to a stage-1 invitation.  The first call
processes M1 and sends the M2 reply, then processM2 raises, so nothing is
committed (the persisted state is unchanged).  Delivering the identical
batch a second time therefore re-processes M1 and sends the M2 reply
again — an outbound message that the resend rule does not license, since
the persisted myMessages is empty (its set of permitted resends,
myMessages ∖ batch, is empty).  The claim's "no outbound messages beyond
that resend rule" on second delivery is false. -/
theorem rendezvous_idempotence_counterexample :
    ((processMessages (processMessages db4 1 [wM1, wM2bad] 9 9 9).db 1
        [wM1, wM2bad] 9 9 9).db
      = (processMessages db4 1 [wM1, wM2bad] 9 9 9).db)
    ∧ (processMessages (processMessages db4 1 [wM1, wM2bad] 9 9 9).db 1
        [wM1, wM2bad] 9 9 9).sent
      = [wireMsg 2 (Data.cat (Data.lit "i0:m2:")
          (Data.box (Data.pk 60) 4 9
            (Data.cat (Data.lit "i0:m2a:")
              (Data.cat (Data.vkey 5)
                (Data.sgn 5 (Data.cat (Data.pk 60)
                  (Data.cat (Data.pk 4) (Data.crecd ⟨20, 30, []⟩))))))))]
    ∧ sdiff invRow4.myMessages [wM1, wM2bad] = [] :=
  ⟨rfl, rfl, rfl⟩

/-- When a processMessages call propagates an exception, nothing was
committed: the resulting database is the input one. -/
theorem processMessages_err_db (db : InvDB) (iid : Nat)
    (batch : List Data) (n1 n2 n3 : Nat) (e : InvErr)
    (h : (processMessages db iid batch n1 n2 n3).err = some e) :
    (processMessages db iid batch n1 n2 n3).db = db := by
  cases hrow : db.invLookup iid with
  | none =>
    have hthis : processMessages db iid batch n1 n2 n3
        = ⟨db, [], false, some InvErr.keyError⟩ := by
      simp only [processMessages, hrow]
    rw [hthis]
  | some row =>
    by_cases hg : ¬ ((sdiff (sdiff batch row.myMessages)
        row.theirMessages).all
        (fun m => (decodeWire row.inviteKey m).isSome) = true)
    · have hthis : processMessages db iid batch n1 n2 n3
          = ⟨db, sdiff row.myMessages batch, false,
              some InvErr.attributeError⟩ := by
        simp only [processMessages, hrow]
        rw [if_pos hg]
      rw [hthis]
    · cases hdisp : dispatchStages
        ⟨row.id, row.petname, row.inviteID, row.inviteKey,
          row.theirTempPubkey, row.nextExpectedMessage,
          row.myMessages, row.theirMessages⟩
        ⟨db, sdiff row.myMessages batch, false⟩
        (List.filterMap (decodeWire row.inviteKey)
          (sdiff (sdiff batch row.myMessages) row.theirMessages))
        n1 n2 n3 with
      | mk s' r =>
        obtain ⟨eff', e'⟩ := r
        cases e' with
        | some e2 =>
          have hthis : processMessages db iid batch n1 n2 n3
              = ⟨db, eff'.sent, eff'.unsubscribed, some e2⟩ := by
            simp only [processMessages, hrow]
            rw [if_neg hg, hdisp]
          rw [hthis]
        | none =>
          have hthis : processMessages db iid batch n1 n2 n3
              = ⟨updateInvFinal eff'.db s'.iid s'.myMessages
                  (sunion s'.theirMessages
                    (sdiff (sdiff batch row.myMessages) row.theirMessages))
                  s'.nextExpectedMessage,
                 eff'.sent, eff'.unsubscribed, none⟩ := by
            simp only [processMessages, hrow]
            rw [if_neg hg, hdisp]
          rw [hthis] at h
          simp at h

/-- After a processMessages call that propagated no exception, delivering
the identical batch again changes nothing and sends only messages the
resend rule licenses (members of the persisted myMessages absent from the
batch). -/
theorem processMessages_second (db : InvDB) (iid : Nat) (batch : List Data)
    (n1 n2 n3 n1' n2' n3' : Nat)
    (herr : (processMessages db iid batch n1 n2 n3).err = none) :
    (processMessages (processMessages db iid batch n1 n2 n3).db iid batch
        n1' n2' n3').db
      = (processMessages db iid batch n1 n2 n3).db
    ∧ ∀ m ∈ (processMessages (processMessages db iid batch n1 n2 n3).db
        iid batch n1' n2' n3').sent,
      ∃ row', (processMessages db iid batch n1 n2 n3).db.invLookup iid
          = some row' ∧ m ∈ row'.myMessages ∧ m ∉ batch := by
  cases hrow : db.invLookup iid with
  | none =>
    have hthis : processMessages db iid batch n1 n2 n3
        = ⟨db, [], false, some InvErr.keyError⟩ := by
      simp only [processMessages, hrow]
    rw [hthis] at herr
    simp at herr
  | some row =>
    by_cases hg : ¬ ((sdiff (sdiff batch row.myMessages)
        row.theirMessages).all
        (fun m => (decodeWire row.inviteKey m).isSome) = true)
    · have hthis : processMessages db iid batch n1 n2 n3
          = ⟨db, sdiff row.myMessages batch, false,
              some InvErr.attributeError⟩ := by
        simp only [processMessages, hrow]
        rw [if_pos hg]
      rw [hthis] at herr
      simp at herr
    · cases hdisp : dispatchStages
        ⟨row.id, row.petname, row.inviteID, row.inviteKey,
          row.theirTempPubkey, row.nextExpectedMessage,
          row.myMessages, row.theirMessages⟩
        ⟨db, sdiff row.myMessages batch, false⟩
        (List.filterMap (decodeWire row.inviteKey)
          (sdiff (sdiff batch row.myMessages) row.theirMessages))
        n1 n2 n3 with
      | mk s' r =>
        obtain ⟨eff', e'⟩ := r
        cases e' with
        | some e2 =>
          have hthis : processMessages db iid batch n1 n2 n3
              = ⟨db, eff'.sent, eff'.unsubscribed, some e2⟩ := by
            simp only [processMessages, hrow]
            rw [if_neg hg, hdisp]
          rw [hthis] at herr
          simp at herr
        | none =>
          have hthis : processMessages db iid batch n1 n2 n3
              = ⟨updateInvFinal eff'.db s'.iid s'.myMessages
                  (sunion s'.theirMessages
                    (sdiff (sdiff batch row.myMessages) row.theirMessages))
                  s'.nextExpectedMessage,
                 eff'.sent, eff'.unsubscribed, none⟩ := by
            simp only [processMessages, hrow]
            rw [if_neg hg, hdisp]
          have F := dispatchStages_facts
            ⟨row.id, row.petname, row.inviteID, row.inviteKey,
              row.theirTempPubkey, row.nextExpectedMessage,
              row.myMessages, row.theirMessages⟩
            ⟨db, sdiff row.myMessages batch, false⟩
            (List.filterMap (decodeWire row.inviteKey)
              (sdiff (sdiff batch row.myMessages) row.theirMessages))
            n1 n2 n3
          rw [hdisp] at F
          obtain ⟨hiid, htheir, hmymono, -⟩ := F
          have hiid' : s'.iid = row.id := hiid
          have htheir' : s'.theirMessages = row.theirMessages := htheir
          have hmymono' : ∀ x ∈ row.myMessages, x ∈ s'.myMessages :=
            fun x hx => hmymono x hx
          have hrid : row.id = iid := InvDB.invLookup_id hrow
          rw [hthis]
          show (processMessages (updateInvFinal eff'.db s'.iid
              s'.myMessages (sunion s'.theirMessages
                (sdiff (sdiff batch row.myMessages) row.theirMessages))
              s'.nextExpectedMessage) iid batch n1' n2' n3').db
            = updateInvFinal eff'.db s'.iid s'.myMessages
                (sunion s'.theirMessages
                  (sdiff (sdiff batch row.myMessages) row.theirMessages))
                s'.nextExpectedMessage
            ∧ ∀ m ∈ (processMessages (updateInvFinal eff'.db s'.iid
                s'.myMessages (sunion s'.theirMessages
                  (sdiff (sdiff batch row.myMessages) row.theirMessages))
                s'.nextExpectedMessage) iid batch n1' n2' n3').sent,
              ∃ row', (updateInvFinal eff'.db s'.iid s'.myMessages
                  (sunion s'.theirMessages
                    (sdiff (sdiff batch row.myMessages) row.theirMessages))
                  s'.nextExpectedMessage).invLookup iid = some row'
                ∧ m ∈ row'.myMessages ∧ m ∉ batch
          cases hq : eff'.db.invLookup iid with
          | none =>
            have hrow2 : (updateInvFinal eff'.db s'.iid s'.myMessages
                (sunion s'.theirMessages
                  (sdiff (sdiff batch row.myMessages) row.theirMessages))
                s'.nextExpectedMessage).invLookup iid = none := by
              rw [invLookup_updateInvFinal, hq]
              rfl
            have h2 : processMessages (updateInvFinal eff'.db s'.iid
                s'.myMessages (sunion s'.theirMessages
                  (sdiff (sdiff batch row.myMessages) row.theirMessages))
                s'.nextExpectedMessage) iid batch n1' n2' n3'
                = ⟨updateInvFinal eff'.db s'.iid s'.myMessages
                    (sunion s'.theirMessages
                      (sdiff (sdiff batch row.myMessages)
                        row.theirMessages))
                    s'.nextExpectedMessage,
                   [], false, some InvErr.keyError⟩ := by
              simp only [processMessages, hrow2]
            rw [h2]
            refine ⟨rfl, fun m hm => ?_⟩
            have hm' : m ∈ ([] : List Data) := hm
            simp at hm'
          | some r2 =>
            have hr2id : r2.id = iid := InvDB.invLookup_id hq
            have hcond : r2.id = s'.iid :=
              hr2id.trans (hiid'.trans hrid).symm
            have hrow2 : ∃ row2, (updateInvFinal eff'.db s'.iid
                s'.myMessages (sunion s'.theirMessages
                  (sdiff (sdiff batch row.myMessages) row.theirMessages))
                s'.nextExpectedMessage).invLookup iid = some row2
                ∧ row2.myMessages = s'.myMessages
                ∧ row2.theirMessages = sunion s'.theirMessages
                    (sdiff (sdiff batch row.myMessages) row.theirMessages)
                ∧ row2.nextExpectedMessage = s'.nextExpectedMessage
                ∧ row2.id = r2.id := by
              rw [invLookup_updateInvFinal, hq]
              simp only [Option.map_some, Option.map_some', if_pos hcond,
                Option.some.injEq]
              exact ⟨_, rfl, rfl, rfl, rfl, rfl⟩
            obtain ⟨row2, hlk, hf1, hf2, hf3, hf4⟩ := hrow2
            have hnew2 : sdiff (sdiff batch row2.myMessages)
                row2.theirMessages = [] := by
              rw [hf1, hf2]
              apply sdiff_eq_nil
              intro m hm
              obtain ⟨hmb, hm1⟩ := mem_sdiff.mp hm
              by_cases hx : m ∈ row.myMessages
              · exact absurd (hmymono' m hx) hm1
              · apply mem_sunion.mpr
                by_cases hy : m ∈ row.theirMessages
                · exact Or.inl (htheir' ▸ hy)
                · exact Or.inr (mem_sdiff.mpr ⟨mem_sdiff.mpr ⟨hmb, hx⟩, hy⟩)
            have h2 := processMessages_no_new
              (updateInvFinal eff'.db s'.iid s'.myMessages
                (sunion s'.theirMessages
                  (sdiff (sdiff batch row.myMessages) row.theirMessages))
                s'.nextExpectedMessage)
              iid batch n1' n2' n3' row2 hlk hnew2
            have hdb3 : updateInvFinal
                (updateInvFinal eff'.db s'.iid s'.myMessages
                  (sunion s'.theirMessages
                    (sdiff (sdiff batch row.myMessages) row.theirMessages))
                  s'.nextExpectedMessage)
                row2.id row2.myMessages (sunion row2.theirMessages [])
                row2.nextExpectedMessage
                = updateInvFinal eff'.db s'.iid s'.myMessages
                    (sunion s'.theirMessages
                      (sdiff (sdiff batch row.myMessages)
                        row.theirMessages))
                    s'.nextExpectedMessage := by
              rw [sunion_nil, hf1, hf2, hf3, hf4, hcond]
              exact updateInvFinal_idem eff'.db s'.iid _ _ _
            constructor
            · rw [h2]
              exact hdb3
            · intro m hm
              rw [h2] at hm
              have hm' : m ∈ sdiff row2.myMessages batch := hm
              obtain ⟨h1, h2'⟩ := mem_sdiff.mp hm'
              exact ⟨row2, hlk, h1, h2'⟩

/-- C4 as amended: (a) every persisted message absent from the delivered
batch is re-broadcast (the crash-recovery resend rule,
invitation.py:223-225); (b) only batch ∖ myMessages ∖ theirMessages is
processed as new — a batch already covered by the two stored sets fires no
handler and leaves state untouched (assuming the invitation id is unique,
as sqlite rowids are); (c) delivering the identical batch a second time
leaves the persisted state unchanged; (d) when the first delivery
propagated no exception, the second delivery sends nothing beyond the
resend rule.  The amendment drops the original "no extra sends" promise
for batches whose first delivery raised — the counterexample shows the M2
reply is then re-sent. -/
theorem rendezvous_resend_idempotence :
    (∀ (db : InvDB) (iid : Nat) (batch : List Data) (n1 n2 n3 : Nat)
        (row : InvitationRow) (m : Data),
      db.invLookup iid = some row → m ∈ row.myMessages → m ∉ batch →
      m ∈ (processMessages db iid batch n1 n2 n3).sent)
  ∧ (∀ (db : InvDB) (iid : Nat) (batch : List Data) (n1 n2 n3 : Nat)
        (row : InvitationRow),
      db.invLookup iid = some row →
      (∀ r ∈ db.invitations, r.id = iid → r = row) →
      (∀ m ∈ batch, m ∈ row.myMessages ∨ m ∈ row.theirMessages) →
      processMessages db iid batch n1 n2 n3
        = ⟨db, sdiff row.myMessages batch, false, none⟩)
  ∧ (∀ (db : InvDB) (iid : Nat) (batch : List Data) (n1 n2 n3 : Nat),
      (processMessages (processMessages db iid batch n1 n2 n3).db iid batch
          n1 n2 n3).db
        = (processMessages db iid batch n1 n2 n3).db)
  ∧ (∀ (db : InvDB) (iid : Nat) (batch : List Data)
        (n1 n2 n3 n1' n2' n3' : Nat) (m : Data),
      (processMessages db iid batch n1 n2 n3).err = none →
      m ∈ (processMessages (processMessages db iid batch n1 n2 n3).db iid
          batch n1' n2' n3').sent →
      ∃ row', (processMessages db iid batch n1 n2 n3).db.invLookup iid
          = some row' ∧ m ∈ row'.myMessages ∧ m ∉ batch) := by
  refine ⟨?_, ?_, ?_, ?_⟩
  · -- (a) resend rule
    intro db iid batch n1 n2 n3 row m hrow hmy hnb
    by_cases hg : ¬ ((sdiff (sdiff batch row.myMessages)
        row.theirMessages).all
        (fun m => (decodeWire row.inviteKey m).isSome) = true)
    · have hthis : processMessages db iid batch n1 n2 n3
          = ⟨db, sdiff row.myMessages batch, false,
              some InvErr.attributeError⟩ := by
        simp only [processMessages, hrow]
        rw [if_pos hg]
      rw [hthis]
      exact mem_sdiff.mpr ⟨hmy, hnb⟩
    · cases hdisp : dispatchStages
        ⟨row.id, row.petname, row.inviteID, row.inviteKey,
          row.theirTempPubkey, row.nextExpectedMessage,
          row.myMessages, row.theirMessages⟩
        ⟨db, sdiff row.myMessages batch, false⟩
        (List.filterMap (decodeWire row.inviteKey)
          (sdiff (sdiff batch row.myMessages) row.theirMessages))
        n1 n2 n3 with
      | mk s' r =>
        obtain ⟨eff', e'⟩ := r
        have F := dispatchStages_facts
          ⟨row.id, row.petname, row.inviteID, row.inviteKey,
            row.theirTempPubkey, row.nextExpectedMessage,
            row.myMessages, row.theirMessages⟩
          ⟨db, sdiff row.myMessages batch, false⟩
          (List.filterMap (decodeWire row.inviteKey)
            (sdiff (sdiff batch row.myMessages) row.theirMessages))
          n1 n2 n3
        rw [hdisp] at F
        obtain ⟨-, -, -, extra, hsent⟩ := F
        have hsent' : eff'.sent = sdiff row.myMessages batch ++ extra :=
          hsent
        cases e' with
        | some e2 =>
          have hthis : processMessages db iid batch n1 n2 n3
              = ⟨db, eff'.sent, eff'.unsubscribed, some e2⟩ := by
            simp only [processMessages, hrow]
            rw [if_neg hg, hdisp]
          rw [hthis]
          show m ∈ eff'.sent
          rw [hsent']
          exact List.mem_append_left _ (mem_sdiff.mpr ⟨hmy, hnb⟩)
        | none =>
          have hthis : processMessages db iid batch n1 n2 n3
              = ⟨updateInvFinal eff'.db s'.iid s'.myMessages
                  (sunion s'.theirMessages
                    (sdiff (sdiff batch row.myMessages) row.theirMessages))
                  s'.nextExpectedMessage,
                 eff'.sent, eff'.unsubscribed, none⟩ := by
            simp only [processMessages, hrow]
            rw [if_neg hg, hdisp]
          rw [hthis]
          show m ∈ eff'.sent
          rw [hsent']
          exact List.mem_append_left _ (mem_sdiff.mpr ⟨hmy, hnb⟩)
  · -- (b) covered batches are no-ops
    intro db iid batch n1 n2 n3 row hrow huniq hcov
    have hnew : sdiff (sdiff batch row.myMessages) row.theirMessages
        = [] := by
      apply sdiff_eq_nil
      intro m hm
      obtain ⟨hmb, hmy⟩ := mem_sdiff.mp hm
      rcases hcov m hmb with h | h
      · exact absurd h hmy
      · exact h
    rw [processMessages_no_new db iid batch n1 n2 n3 row hrow hnew]
    have hrid : row.id = iid := InvDB.invLookup_id hrow
    have hdbeq : updateInvFinal db row.id row.myMessages
        (sunion row.theirMessages []) row.nextExpectedMessage = db := by
      rw [sunion_nil]
      unfold updateInvFinal
      have hmap : db.invitations.map (fun r =>
          if r.id = row.id then
            { r with myMessages := row.myMessages,
                     theirMessages := row.theirMessages,
                     nextExpectedMessage := row.nextExpectedMessage }
          else r) = db.invitations := by
        have hcg : ∀ r ∈ db.invitations, (if r.id = row.id then
            { r with myMessages := row.myMessages,
                     theirMessages := row.theirMessages,
                     nextExpectedMessage := row.nextExpectedMessage }
            else r) = r := by
          intro r hr
          by_cases hid : r.id = row.id
          · rw [if_pos hid]
            have : r = row := huniq r hr (by rw [hid, hrid])
            subst this
            rfl
          · rw [if_neg hid]
        exact (List.map_congr_left hcg).trans (List.map_id _)
      rw [hmap]
    rw [hdbeq]
  · -- (c) state idempotence under identical redelivery
    intro db iid batch n1 n2 n3
    by_cases herr : (processMessages db iid batch n1 n2 n3).err = none
    · exact (processMessages_second db iid batch n1 n2 n3 n1 n2 n3 herr).1
    · obtain ⟨e, he⟩ := Option.ne_none_iff_exists'.mp herr
      have h1 := processMessages_err_db db iid batch n1 n2 n3 e he
      rw [h1]
      exact h1
  · -- (d) second delivery sends only resends when the first did not raise
    intro db iid batch n1 n2 n3 n1' n2' n3' m herr hm
    exact (processMessages_second db iid batch n1 n2 n3 n1' n2' n3'
      herr).2 m hm

/-- Stage-1 invitation row with one already-broadcast message. -/
def invRow4b : InvitationRow :=
  { invRow4 with myMessages := [Data.lit "old"] }

/-- Witness for the amended C4 on concrete databases: the stored message
is re-broadcast when absent from the batch; a fully covered batch is a
no-op; redelivery of the M1+bad-M2 batch leaves state unchanged; and an
exception-free first delivery makes the second one send only resends. -/
theorem rendezvous_resend_idempotence_witness :
    Data.lit "old" ∈ (processMessages ⟨[invRow4b], [], 1⟩ 1 [] 0 0 0).sent
    ∧ processMessages ⟨[invRow4b], [], 1⟩ 1 [Data.lit "old"] 0 0 0
        = ⟨⟨[invRow4b], [], 1⟩,
           sdiff invRow4b.myMessages [Data.lit "old"], false, none⟩
    ∧ (processMessages (processMessages db4 1 [wM1, wM2bad] 9 9 9).db 1
        [wM1, wM2bad] 9 9 9).db
      = (processMessages db4 1 [wM1, wM2bad] 9 9 9).db
    ∧ ∀ m ∈ (processMessages (processMessages db4 1 [] 0 0 0).db 1 []
        0 0 0).sent,
      ∃ row', (processMessages db4 1 [] 0 0 0).db.invLookup 1 = some row'
        ∧ m ∈ row'.myMessages ∧ m ∉ ([] : List Data) :=
  ⟨rendezvous_resend_idempotence.1 ⟨[invRow4b], [], 1⟩ 1 [] 0 0 0 invRow4b
      (Data.lit "old") rfl (by decide) (by decide),
   rendezvous_resend_idempotence.2.1 ⟨[invRow4b], [], 1⟩ 1
      [Data.lit "old"] 0 0 0 invRow4b rfl (by decide) (by decide),
   rendezvous_resend_idempotence.2.2.1 db4 1 [wM1, wM2bad] 9 9 9,
   fun m hm =>
     rendezvous_resend_idempotence.2.2.2 db4 1 [] 0 0 0 0 0 0 m rfl hm⟩

/-! ## C9: observable-store notification discipline -/

theorem applyWrite_reactor (s : Sys V) (w : Write V) :
    (s.applyWrite w).reactor = s.reactor := by
  cases w <;> rfl

/-- C9: write/commit/notify discipline of the observable store.  In order:
(1) no observer callback runs during any sequence of insert/update/delete
writes (the reactor — queue and delivery log — is untouched);
(2) commit itself invokes no observer (the delivery log is unchanged);
(3) commit first makes the connection's live view durable;
(4) commit clears the pending-notification queue;
(5) commit schedules, via eventually, exactly one callback per pending
notice and subscribed observer of its table;
(6) a later reactor turn — a separate scheduler step, hence strictly after
the commit is durable — delivers every queued callback exactly once and
empties the queue;
(7) committing again immediately schedules nothing further, so no queued
notification can be delivered twice. -/
theorem observable_store_discipline (V : Type) :
    (∀ (s : Sys V) (ws : List (Write V)), (s.applyWrites ws).reactor = s.reactor)
  ∧ (∀ s : Sys V, (Sys.commit s).reactor.delivered = s.reactor.delivered)
  ∧ (∀ s : Sys V, (Sys.commit s).odb.conn.committed = s.odb.conn.live)
  ∧ (∀ s : Sys V, (Sys.commit s).odb.pending_notifications = [])
  ∧ (∀ s : Sys V, (Sys.commit s).reactor.queue
      = s.reactor.queue ++ enqueueAll s.odb.observers s.odb.pending_notifications)
  ∧ (∀ s : Sys V, (Sys.turn s).reactor.delivered
        = s.reactor.delivered ++ s.reactor.queue
      ∧ (Sys.turn s).reactor.queue = [])
  ∧ (∀ s : Sys V, (Sys.commit (Sys.commit s)).reactor.queue
      = (Sys.commit s).reactor.queue) := by
  refine ⟨?_, fun _ => rfl, fun _ => rfl, fun _ => rfl, fun _ => rfl,
    fun _ => ⟨rfl, rfl⟩, ?_⟩
  · intro s ws
    induction ws generalizing s with
    | nil => rfl
    | cons w l ih =>
      show ((s.applyWrite w).applyWrites l).reactor = s.reactor
      rw [ih, applyWrite_reactor]
  · intro s
    show (Sys.commit s).reactor.queue ++ enqueueAll _ [] = _
    simp [enqueueAll]

end Petmail
